import Mathlib

/-!
# KConfigCodeGeneratorBase

A shallow embedding of `src/kconfig_compiler/KConfigCodeGeneratorBase.cpp`.

* `QString` values are Lean `String`s; the text stream `m_stream` is the string of
  everything written so far, and `operator<<` appends to it.
* `m_indentLevel` is a C++ `int`. `indent` and `unindent` compute on it as an integer
  without bound; they give the level the code holds whenever the sum or difference fits the
  32-bit range, which along calls from level 0 is the case for more than 10^9 calls.
  `indentInt32` and `unindentInt32` are the same member functions with the result reduced
  to the 32-bit range (two's complement), which is what the code holds at the few levels
  where the step overflows.
* The free functions `varPath`, `immutableFunction`, `enumType`, `enumName`,
  `signalEnumName`, `isUnsigned` and `addDebugMethod` are declared in
  `KConfigCommonStructs.h` and defined outside this source file; the generator is
  parameterised over them (`CommonStructs`), and every theorem holds for all of them.
-/

namespace KConfig

/-! ## Data model -/

/-- The `Signal` record of an entry: its name and whether it is emitted directly. -/
structure Signal where
  name : String
  modify : Bool
  deriving DecidableEq, Repr

/-- The fields of `CfgEntry` read by the generator base class. -/
structure CfgEntry where
  name : String
  type : String
  min : String
  max : String
  param : String
  paramName : String
  paramType : String
  signalList : List Signal
  deriving DecidableEq, Repr

/-- The fields of `KConfigParameters` read by the generator base class. -/
structure KConfigParameters where
  staticAccessors : Bool
  dpointer : Bool
  useEnumTypes : Bool
  generateProperties : Bool
  className : String
  nameSpace : String
  deriving DecidableEq, Repr

/-- The helper functions of `KConfigCommonStructs.h` that the generator calls and that are
defined outside this source file. `addDebugMethod` writes to the stream it is given; the
field is the text it writes. -/
structure CommonStructs where
  varPath : String → KConfigParameters → String
  immutableFunction : String → String → String
  enumType : CfgEntry → Bool → String
  enumName : String → String
  signalEnumName : String → String
  isUnsigned : String → Bool
  addDebugMethod : KConfigParameters → String → String

/-- The state of a `KConfigCodeGeneratorBase` object that the member functions below read
or write. -/
structure KConfigCodeGeneratorBase where
  m_cfg : KConfigParameters
  m_this : String
  m_const : String
  m_indentLevel : Int
  m_stream : String
  deriving DecidableEq, Repr

/-- The constructor (lines 27-48) after a successful open: the stream is empty, the indent
level is 0, and `m_this` / `m_const` are chosen by `staticAccessors`. -/
def construct (parameters : KConfigParameters) : KConfigCodeGeneratorBase :=
  { m_cfg := parameters
    m_this := if parameters.staticAccessors then "self()->" else ""
    m_const := if parameters.staticAccessors then "" else " const"
    m_indentLevel := 0
    m_stream := "" }

namespace KConfigCodeGeneratorBase

/-- The stream insertion `m_stream << s`. -/
def put (g : KConfigCodeGeneratorBase) (s : String) : KConfigCodeGeneratorBase :=
  { g with m_stream := g.m_stream ++ s }

/-! ## Indentation (lines 61-86) -/

/-- The member function `indent()`, computed on integers: the level the code holds whenever
the sum fits the range of `int`, that is for every `int` level up to 2147483645. -/
def indent (g : KConfigCodeGeneratorBase) : KConfigCodeGeneratorBase :=
  if g.m_indentLevel ≥ 4 then
    { g with m_indentLevel := g.m_indentLevel + 2 }
  else
    { g with m_indentLevel := g.m_indentLevel + 4 }

/-- The member function `unindent()`, computed on integers: the level the code holds
whenever the difference fits the range of `int`, that is for every `int` level from
-2147483644 on. -/
def unindent (g : KConfigCodeGeneratorBase) : KConfigCodeGeneratorBase :=
  if g.m_indentLevel > 4 then
    { g with m_indentLevel := g.m_indentLevel - 2 }
  else
    { g with m_indentLevel := g.m_indentLevel - 4 }

/-- The value a 32-bit `int` holds after an arithmetic result `x`: `x` itself when it lies
between -2147483648 and 2147483647, and otherwise `x` reduced into that range modulo 2^32
(two's complement). -/
def wrapInt32 (x : Int) : Int :=
  (x + 2147483648) % 4294967296 - 2147483648

/-- The member function `indent()` with `m_indentLevel` held in a 32-bit `int`. -/
def indentInt32 (g : KConfigCodeGeneratorBase) : KConfigCodeGeneratorBase :=
  if g.m_indentLevel ≥ 4 then
    { g with m_indentLevel := wrapInt32 (g.m_indentLevel + 2) }
  else
    { g with m_indentLevel := wrapInt32 (g.m_indentLevel + 4) }

/-- The member function `unindent()` with `m_indentLevel` held in a 32-bit `int`. -/
def unindentInt32 (g : KConfigCodeGeneratorBase) : KConfigCodeGeneratorBase :=
  if g.m_indentLevel > 4 then
    { g with m_indentLevel := wrapInt32 (g.m_indentLevel - 2) }
  else
    { g with m_indentLevel := wrapInt32 (g.m_indentLevel - 4) }

/-- The loop of `whitespace()`: `k` iterations remain, each appends one space. -/
def whitespaceLoop : Nat → String → String
  | 0, spaces => spaces
  | k + 1, spaces => whitespaceLoop k (spaces.push ' ')

/-- The member function `whitespace()`: the loop `for (i = 0; i < m_indentLevel; i++)` runs
`m_indentLevel` times, and not at all for a level that is zero or negative. -/
def whitespace (g : KConfigCodeGeneratorBase) : String :=
  whitespaceLoop g.m_indentLevel.toNat ""

/-! ## Brace scopes (lines 88-103) -/

/-- The library call `header.startsWith(QLatin1Char('"'))`: the first character of the
string is the double quote (code point 34). -/
def startsWithQuote (header : String) : Bool :=
  match header.data with
  | [] => false
  | c :: _ => c == Char.ofNat 34

/-- The body of the loop of `addHeaders` over the header list. -/
def addHeader (g : KConfigCodeGeneratorBase) (header : String) : KConfigCodeGeneratorBase :=
  if startsWithQuote header then
    ((g.put "#include ").put header).put "\n"
  else
    ((g.put "#include <").put header).put ">\n"

/-- The member function `addHeaders(headerList)`. -/
def addHeaders (g : KConfigCodeGeneratorBase) (headerList : List String) :
    KConfigCodeGeneratorBase :=
  headerList.foldl addHeader g

/-! ## Namespaces (lines 125-146) -/

/-- The scan of `QString::split(sep)` for a non-empty `sep`, case-sensitive and keeping empty
parts: `part` is the segment collected so far and `skip` characters of a separator just
found are still to be passed over. Where `sep` starts at the current character the segment
is closed and the scan resumes behind the separator; at the end of the subject the last
segment is closed. -/
def splitScan (sep : List Char) : Nat → List Char → List Char → List (List Char)
  | _, part, [] => [part]
  | skip + 1, part, _ :: rest => splitScan sep skip part rest
  | 0, part, c :: rest =>
    if sep.isPrefixOf (c :: rest) then
      part :: splitScan sep (sep.length - 1) [] rest
    else
      splitScan sep 0 (part ++ [c]) rest

/-- The library call `subject.split(sep)` for a non-empty `sep`. -/
def qSplit (subject sep : String) : List String :=
  (splitScan sep.data 0 [] subject.data).map String.mk

/-- The scan of `QString::count(needle)` for a non-empty `needle`: the search for the next
occurrence restarts one character behind the start of the last one, so every position at
which `needle` occurs is counted and occurrences may overlap. -/
def countScan (needle : List Char) : List Char → Nat
  | [] => 0
  | c :: rest => (if needle.isPrefixOf (c :: rest) then 1 else 0) + countScan needle rest

/-- The library call `subject.count(needle)` for a non-empty `needle`. -/
def qCount (subject needle : String) : Nat :=
  countScan needle.data subject.data

/-- The body of the loop of `beginNamespaces` over the segments. -/
def openNamespace (g : KConfigCodeGeneratorBase) (ns : String) : KConfigCodeGeneratorBase :=
  ((g.put "namespace ").put ns).put " \x7b\n"

/-- The member function `beginNamespaces()`. -/
def beginNamespaces (g : KConfigCodeGeneratorBase) : KConfigCodeGeneratorBase :=
  if g.m_cfg.nameSpace ≠ "" then
    let g := (qSplit g.m_cfg.nameSpace "::").foldl openNamespace g
    g.put "\n"
  else g

/-- The loop `for (int i = 0; i < namespaceCount; ++i)` of `endNamespaces`: `k` iterations
remain, each writes one closing line. -/
def endNamespacesLoop : Nat → KConfigCodeGeneratorBase → KConfigCodeGeneratorBase
  | 0, g => g
  | k + 1, g => endNamespacesLoop k (g.put "\x7d\n")

/-- The member function `endNamespaces()`. -/
def endNamespaces (g : KConfigCodeGeneratorBase) : KConfigCodeGeneratorBase :=
  if g.m_cfg.nameSpace ≠ "" then
    let g := g.put "\n"
    let namespaceCount : Int := (qCount g.m_cfg.nameSpace "::" : Int) + 1
    endNamespacesLoop namespaceCount.toNat g
  else g

/-! ## The destination (lines 50-58) -/

/-- The state of the member `m_file`, a `QFile`: whether the device is open, how many times
`close()` has been called on it, and how many times the device has in fact been closed. -/
structure QFile where
  isOpen : Bool
  closeCalls : Nat
  timesClosed : Nat
  deriving DecidableEq, Repr

/-- The member `m_file` when the constructor has opened it (lines 35-39). -/
def QFile.opened : QFile :=
  { isOpen := true, closeCalls := 0, timesClosed := 0 }

/-- The library call `QFile::close()`: it returns at once when the device is not open, and
otherwise flushes and closes it. -/
def QFile.close (m_file : QFile) : QFile :=
  if m_file.isOpen then
    { isOpen := false, closeCalls := m_file.closeCalls + 1,
      timesClosed := m_file.timesClosed + 1 }
  else
    { m_file with closeCalls := m_file.closeCalls + 1 }

/-- The member function `save()`: its body is `m_file.close()`, and it reads and writes no
other member, so it is embedded on the state of `m_file`. -/
def save (m_file : QFile) : QFile :=
  m_file.close

/-- The destructor `~KConfigCodeGeneratorBase()`: its body is `save()`. -/
def destructor (m_file : QFile) : QFile :=
  save m_file

/-! ## Accessor body (lines 151-173) -/

/-- The member function `memberAccessorBody(e, globalEnums)`: `out` is the local text
stream over `result`. -/
def memberAccessorBody (cs : CommonStructs) (g : KConfigCodeGeneratorBase) (e : CfgEntry)
    (globalEnums : Bool) : String :=
  let n := e.name
  let t := e.type
  let useEnumType : Bool := g.m_cfg.useEnumTypes && decide (t = "Enum")
  let out : String := ""
  let out := out ++ "return "
  let out := if useEnumType then out ++ "static_cast<" ++ cs.enumType e globalEnums ++ ">(" else out
  let out := out ++ g.m_this ++ cs.varPath n g.m_cfg
  let out := if e.param ≠ "" then out ++ "[i]" else out
  let out := if useEnumType then out ++ ")" else out
  let out := out ++ ";\n"
  out

/-! ## Immutability body (lines 175-201) -/

/-- The scan of `QString::replace(before, after)` over the characters of the subject, for a
non-empty `before` and case-sensitive matching: `skip` characters of a match just replaced
are still to be passed over; otherwise, where `before` starts at the current character it is
replaced by `after` and the scan resumes behind the match, and where it does not the
character is kept. -/
def replaceScan (before after : List Char) : Nat → List Char → List Char
  | _, [] => []
  | skip + 1, _ :: rest => replaceScan before after skip rest
  | 0, c :: rest =>
    if before.isPrefixOf (c :: rest) then
      after ++ replaceScan before after (before.length - 1) rest
    else
      c :: replaceScan before after 0 rest

/-- The library call `QString(subject).replace(before, after)` for a non-empty `before` (at
its only call site `before` is `"$(" + param + ")"`). -/
def qReplace (subject before after : String) : String :=
  String.mk (replaceScan before.data after.data 0 subject.data)

/-- The member function `memberImmutableBody(e, globalEnums)`. -/
def memberImmutableBody (cs : CommonStructs) (g : KConfigCodeGeneratorBase) (e : CfgEntry)
    (globalEnums : Bool) : KConfigCodeGeneratorBase :=
  let n := e.name
  let g := (((g.put (whitespace g)).put "return ").put g.m_this).put
    "isImmutable( QStringLiteral( \""
  let g :=
    if e.param ≠ "" then
      let g := (g.put (qReplace e.paramName ("$(" ++ e.param ++ ")") "%1")).put "\" ).arg( "
      let g :=
        if e.paramType = "Enum" then
          let g := g.put "QLatin1String( "
          let g :=
            if globalEnums then
              (g.put (cs.enumName e.param)).put "ToString[i]"
            else
              (g.put (cs.enumName e.param)).put "::enumToString[i]"
          g.put " )"
        else
          g.put "i"
      g.put " )"
    else
      (g.put n).put "\" )"
  g.put " );\n"

/-! ## Mutator body (lines 203-271) -/

/-- The member function `createIfSetLogic(e, varExpression)`. -/
def createIfSetLogic (cs : CommonStructs) (g : KConfigCodeGeneratorBase) (e : CfgEntry)
    (varExpression : String) : KConfigCodeGeneratorBase :=
  let n := e.name
  let hasBody : Bool := !e.signalList.isEmpty || g.m_cfg.generateProperties
  let g := (g.put (whitespace g)).put "if ("
  let g :=
    if hasBody then
      ((g.put "v != ").put varExpression).put " && "
    else g
  let immutablefunction :=
    cs.immutableFunction n (if g.m_cfg.dpointer then g.m_cfg.className else "")
  let g := (((g.put "!").put g.m_this).put immutablefunction).put "("
  let g := if e.param ≠ "" then g.put " i " else g
  g.put "))"

/-- The body of the loop over `listSignal` in `memberMutatorBody` (lines 261-266). -/
def signalStatement (cs : CommonStructs) (g : KConfigCodeGeneratorBase) (signal : Signal) :
    KConfigCodeGeneratorBase :=
  if signal.modify then
    ((((g.put (whitespace g)).put "  Q_EMIT ").put g.m_this).put signal.name).put "();\n"
  else
    ((((((g.put (whitespace g)).put "  ").put g.m_this).put
      (cs.varPath "settingsChanged" g.m_cfg)).put " |= ").put
      (cs.signalEnumName signal.name)).put ";\n"

/-- Lines 228-237 of `memberMutatorBody(e)`: the lower-bound check. -/
def mutatorLowerBound (cs : CommonStructs) (g : KConfigCodeGeneratorBase) (e : CfgEntry) :
    KConfigCodeGeneratorBase :=
  let n := e.name
  let t := e.type
  if e.min ≠ "" then
    if e.min ≠ "0" ∨ !cs.isUnsigned t then
      let g := (((g.put (whitespace g)).put "if (v < ").put e.min).put ")\n"
      let g := (g.put (whitespace g)).put "\x7b\n"
      let g := (g.put (whitespace g)).put (cs.addDebugMethod g.m_cfg n)
      let g := ((g.put ": value \" << v << \" is less than the minimum value of ").put
        e.min).put "\";\n"
      let g := (((g.put (whitespace g)).put "  v = ").put e.min).put ";\n"
      (g.put (whitespace g)).put "\x7d\n"
    else g
  else g

/-- Lines 239-247 of `memberMutatorBody(e)`: the upper-bound check. -/
def mutatorUpperBound (cs : CommonStructs) (g : KConfigCodeGeneratorBase) (e : CfgEntry) :
    KConfigCodeGeneratorBase :=
  let n := e.name
  if e.max ≠ "" then
    let g := g.put "\n"
    let g := (((g.put (whitespace g)).put "if (v > ").put e.max).put ")\n"
    let g := (g.put (whitespace g)).put "\x7b\n"
    let g := (g.put (whitespace g)).put (cs.addDebugMethod g.m_cfg n)
    let g := ((g.put ": value \" << v << \" is greater than the maximum value of ").put
      e.max).put "\";\n"
    let g := (((g.put (whitespace g)).put "  v = ").put e.max).put ";\n"
    (g.put (whitespace g)).put "\x7d\n\n"
  else g

/-- Lines 249-270 of `memberMutatorBody(e)`: the guard, the assignment, the signal
statements and the closing of the block. -/
def mutatorAssignment (cs : CommonStructs) (g : KConfigCodeGeneratorBase) (e : CfgEntry) :
    KConfigCodeGeneratorBase :=
  let n := e.name
  let varExpression :=
    g.m_this ++ cs.varPath n g.m_cfg ++ (if e.param = "" then "" else "[i]")
  let hasBody : Bool := !e.signalList.isEmpty || g.m_cfg.generateProperties
  let g := createIfSetLogic cs g e varExpression
  let g := (g.put (if hasBody then " \x7b" else "")).put "\n"
  let g := (((g.put (whitespace g)).put "  ").put varExpression).put " = v;\n"
  let listSignal := e.signalList
  let g := listSignal.foldl (signalStatement cs) g
  if hasBody then (g.put (whitespace g)).put "\x7d\n" else g

/-- The member function `memberMutatorBody(e)`: its three parts in source order, each
writing to the stream the previous one left. -/
def memberMutatorBody (cs : CommonStructs) (g : KConfigCodeGeneratorBase) (e : CfgEntry) :
    KConfigCodeGeneratorBase :=
  let g := mutatorLowerBound cs g e
  let g := mutatorUpperBound cs g e
  mutatorAssignment cs g e

/-! ## The emitted text, as the specification words it

The definitions of this section are not translated from the code: they write down, piece by
piece, the text that the specification says a mutator body consists of. The theorems below
compare them with `memberMutatorBody`. -/

/-- The storage-path target expression of an entry: accessor prefix, storage path, and the
index suffix `[i]` for an indexed entry. -/
def targetExpression (cs : CommonStructs) (g : KConfigCodeGeneratorBase) (e : CfgEntry) :
    String :=
  g.m_this ++ cs.varPath e.name g.m_cfg ++ (if e.param ≠ "" then "[i]" else "")

/-- Something observes a change of the entry: it has at least one signal, or
`generateProperties` is set. -/
def observed (g : KConfigCodeGeneratorBase) (e : CfgEntry) : Prop :=
  e.signalList ≠ [] ∨ g.m_cfg.generateProperties = true

instance (g : KConfigCodeGeneratorBase) (e : CfgEntry) : Decidable (observed g e) :=
  inferInstanceAs (Decidable (_ ∨ _))

/-- The lower-bound clamp is due: `min` is set, and it is not an unsigned type with the
literal minimum `"0"`. -/
def lowerClampDue (cs : CommonStructs) (e : CfgEntry) : Prop :=
  e.min ≠ "" ∧ ¬ (e.min = "0" ∧ cs.isUnsigned e.type = true)

instance (cs : CommonStructs) (e : CfgEntry) : Decidable (lowerClampDue cs e) :=
  inferInstanceAs (Decidable (_ ∧ _))

/-- The lower-bound clamp block, or nothing when the clamp is not due. -/
def lowerClampText (cs : CommonStructs) (g : KConfigCodeGeneratorBase) (e : CfgEntry) :
    String :=
  if lowerClampDue cs e then
    whitespace g ++ "if (v < " ++ e.min ++ ")\n"
      ++ whitespace g ++ "\x7b\n"
      ++ whitespace g ++ cs.addDebugMethod g.m_cfg e.name
      ++ ": value \" << v << \" is less than the minimum value of " ++ e.min ++ "\";\n"
      ++ whitespace g ++ "  v = " ++ e.min ++ ";\n"
      ++ whitespace g ++ "\x7d\n"
  else ""

/-- The upper-bound clamp block with its surrounding blank lines, or nothing when `max` is
not set. -/
def upperClampText (cs : CommonStructs) (g : KConfigCodeGeneratorBase) (e : CfgEntry) :
    String :=
  if e.max ≠ "" then
    "\n" ++ whitespace g ++ "if (v > " ++ e.max ++ ")\n"
      ++ whitespace g ++ "\x7b\n"
      ++ whitespace g ++ cs.addDebugMethod g.m_cfg e.name
      ++ ": value \" << v << \" is greater than the maximum value of " ++ e.max ++ "\";\n"
      ++ whitespace g ++ "  v = " ++ e.max ++ ";\n"
      ++ whitespace g ++ "\x7d\n\n"
  else ""

/-- The immutability guard, up to and including its closing parentheses. -/
def guardText (cs : CommonStructs) (g : KConfigCodeGeneratorBase) (e : CfgEntry) : String :=
  whitespace g ++ "if ("
    ++ (if observed g e then "v != " ++ targetExpression cs g e ++ " && " else "")
    ++ "!" ++ g.m_this
    ++ cs.immutableFunction e.name (if g.m_cfg.dpointer then g.m_cfg.className else "")
    ++ "(" ++ (if e.param ≠ "" then " i " else "") ++ "))"

/-- The assignment line `<target> = v;`. -/
def assignmentLine (cs : CommonStructs) (g : KConfigCodeGeneratorBase) (e : CfgEntry) :
    String :=
  whitespace g ++ "  " ++ targetExpression cs g e ++ " = v;\n"

/-- The line of one signal: a direct emission when `modify` is set, and otherwise the
accumulation of its bit constant into `settingsChanged`. -/
def signalLine (cs : CommonStructs) (g : KConfigCodeGeneratorBase) (sk : Signal) : String :=
  if sk.modify then
    whitespace g ++ "  Q_EMIT " ++ g.m_this ++ sk.name ++ "();\n"
  else
    whitespace g ++ "  " ++ g.m_this ++ cs.varPath "settingsChanged" g.m_cfg ++ " |= "
      ++ cs.signalEnumName sk.name ++ ";\n"

/-- The lines of a list, one after the other. -/
def concatLines : List String → String
  | [] => ""
  | line :: rest => line ++ concatLines rest

/-- The closing line of the guarded block, present when the block was opened. -/
def closingText (g : KConfigCodeGeneratorBase) (e : CfgEntry) : String :=
  if observed g e then whitespace g ++ "\x7d\n" else ""

/-- The whole mutator body: bound clamps, guard line, assignment, signal lines, closing. -/
def mutatorText (cs : CommonStructs) (g : KConfigCodeGeneratorBase) (e : CfgEntry) : String :=
  lowerClampText cs g e ++ upperClampText cs g e
    ++ guardText cs g e ++ (if observed g e then " \x7b" else "") ++ "\n"
    ++ assignmentLine cs g e
    ++ concatLines (e.signalList.map (signalLine cs g))
    ++ closingText g e

/-! ## Indentation and lifecycle, as the specification words them -/

/-- A string of `n` space characters. -/
def spaces (n : Nat) : String :=
  String.mk (List.replicate n ' ')

/-- The generator after `n` calls of `indent()`. -/
def indentTimes : Nat → KConfigCodeGeneratorBase → KConfigCodeGeneratorBase
  | 0, g => g
  | n + 1, g => indent (indentTimes n g)

/-- The generator after `n` calls of `indent()`, the level held in a 32-bit `int`. -/
def indentTimesInt32 : Nat → KConfigCodeGeneratorBase → KConfigCodeGeneratorBase
  | 0, g => g
  | n + 1, g => indentInt32 (indentTimesInt32 n g)

/-- The lifecycle of the destination: opened by the constructor, `n` explicit calls of
`save()`, then the destructor. -/
def saveTimes : Nat → QFile → QFile
  | 0, m_file => m_file
  | n + 1, m_file => save (saveTimes n m_file)

end KConfigCodeGeneratorBase

/-! ## Sample inputs -/

/-- Modelled from the spec: one instance of the naming helpers of `KConfigCommonStructs.h`
(storage path by storage style, immutability predicate decorated with the class name under
indirection storage, enum and signal constant names, the unsigned numeric kinds, the
diagnostic call). Their definitions are not part of this source file; the theorems hold for
every instance and this one only supplies concrete inputs. -/
def sampleCommon : CommonStructs :=
  { varPath := fun n cfg => (if cfg.dpointer then "d->" else "m") ++ n
    immutableFunction := fun n className =>
      (if className = "" then "" else className ++ "::") ++ "is" ++ n ++ "Immutable"
    enumType := fun e globalEnums => "Enum" ++ e.name ++ (if globalEnums then "" else "::type")
    enumName := fun n => "Enum" ++ n
    signalEnumName := fun n => "signal" ++ n
    isUnsigned := fun t => decide (t = "UInt") || decide (t = "ULongLong")
    addDebugMethod := fun _ n => "  qDebug() << \"set" ++ n }

/-- Instance-style accessors, direct-member storage, no enum types, no properties. -/
def plainParameters : KConfigParameters :=
  { staticAccessors := false, dpointer := false, useEnumTypes := false,
    generateProperties := false, className := "Settings", nameSpace := "" }

/-- Static accessors, indirection storage, enum types and properties switched on. -/
def richParameters : KConfigParameters :=
  { staticAccessors := true, dpointer := true, useEnumTypes := true,
    generateProperties := true, className := "Settings", nameSpace := "Org::App" }

/-- A scalar string entry without bounds or signals. -/
def colorEntry : CfgEntry :=
  { name := "Color", type := "String", min := "", max := "", param := "", paramName := "",
    paramType := "", signalList := [] }

/-- An indexed unsigned entry with both bounds and two signals, keyed by an enum parameter. -/
def volumeEntry : CfgEntry :=
  { name := "Volume", type := "UInt", min := "0", max := "11", param := "Channel",
    paramName := "Volume$(Channel)", paramType := "Enum",
    signalList := [⟨"volumeChanged", true⟩, ⟨"anyChanged", false⟩] }

end KConfig

/-! ## Theorems -/

namespace KConfig

open KConfigCodeGeneratorBase

/-! ### The generator on the sample inputs -/

theorem memberAccessorBody_volume :
    memberAccessorBody sampleCommon (construct richParameters) volumeEntry true
      = "return self()->d->Volume[i];\n" := by decide

theorem memberImmutableBody_volume :
    (memberImmutableBody sampleCommon (construct richParameters) volumeEntry true).m_stream
      = "return self()->isImmutable( QStringLiteral( \"Volume%1\" ).arg( "
        ++ "QLatin1String( EnumChannelToString[i] ) ) );\n" := by decide

set_option maxRecDepth 8000 in
theorem memberMutatorBody_volume :
    (memberMutatorBody sampleCommon (indent (construct plainParameters))
        { volumeEntry with type := "Int" }).m_stream
      = "    if (v < 0)\n"
        ++ "    \x7b\n"
        ++ "      qDebug() << \"setVolume: value \" << v << \" is less than the minimum value of 0\";\n"
        ++ "      v = 0;\n"
        ++ "    \x7d\n"
        ++ "\n"
        ++ "    if (v > 11)\n"
        ++ "    \x7b\n"
        ++ "      qDebug() << \"setVolume: value \" << v << \" is greater than the maximum value of 11\";\n"
        ++ "      v = 11;\n"
        ++ "    \x7d\n"
        ++ "\n"
        ++ "    if (v != mVolume[i] && !isVolumeImmutable( i )) \x7b\n"
        ++ "      mVolume[i] = v;\n"
        ++ "      Q_EMIT volumeChanged();\n"
        ++ "      msettingsChanged |= signalanyChanged;\n"
        ++ "    \x7d\n" := by decide

theorem qReplace_examples :
    qReplace "a$(x)b$(x)$(x" "$(x)" "%1" = "a%1b%1$(x"
    ∧ qReplace "aaa" "aa" "b" = "ba"
    ∧ qReplace "Volume" "$(Channel)" "%1" = "Volume" := by decide

/-! ### The stream primitive -/

@[simp] theorem put_m_stream (g : KConfigCodeGeneratorBase) (s : String) :
    (g.put s).m_stream = g.m_stream ++ s := rfl

@[simp] theorem put_m_cfg (g : KConfigCodeGeneratorBase) (s : String) :
    (g.put s).m_cfg = g.m_cfg := rfl

@[simp] theorem put_m_this (g : KConfigCodeGeneratorBase) (s : String) :
    (g.put s).m_this = g.m_this := rfl

@[simp] theorem whitespace_put (g : KConfigCodeGeneratorBase) (s : String) :
    whitespace (g.put s) = whitespace g := rfl

theorem put_put (g : KConfigCodeGeneratorBase) (a b : String) :
    (g.put a).put b = g.put (a ++ b) := by
  simp [put, String.append_assoc]

theorem put_empty (g : KConfigCodeGeneratorBase) : g.put "" = g := by
  simp [put]

/-! ### The mutator body as one text -/

theorem createIfSetLogic_eq (cs : CommonStructs) (g : KConfigCodeGeneratorBase) (e : CfgEntry)
    (v : String) :
    createIfSetLogic cs g e v =
      g.put (whitespace g ++ "if ("
        ++ (if observed g e then "v != " ++ v ++ " && " else "")
        ++ "!" ++ g.m_this
        ++ cs.immutableFunction e.name (if g.m_cfg.dpointer then g.m_cfg.className else "")
        ++ "(" ++ (if e.param ≠ "" then " i " else "") ++ "))") := by
  unfold createIfSetLogic
  by_cases ho : e.signalList ≠ [] ∨ g.m_cfg.generateProperties = true <;>
    by_cases hp : e.param = "" <;>
    simp [observed, ho, hp, put_put, String.append_assoc] <;> rfl

theorem signalStatement_eq (cs : CommonStructs) (g : KConfigCodeGeneratorBase) (sk : Signal) :
    signalStatement cs g sk = g.put (signalLine cs g sk) := by
  unfold signalStatement signalLine
  cases sk.modify <;> simp [put_put, String.append_assoc]

theorem signalLine_put (cs : CommonStructs) (g : KConfigCodeGeneratorBase) (s : String) :
    signalLine cs (g.put s) = signalLine cs g := by
  funext sk
  simp [signalLine]

theorem foldl_signalStatement (cs : CommonStructs) (l : List Signal) :
    ∀ g : KConfigCodeGeneratorBase,
      l.foldl (signalStatement cs) g = g.put (concatLines (l.map (signalLine cs g))) := by
  induction l with
  | nil => intro g; simp [concatLines, put_empty]
  | cons sk rest ih =>
    intro g
    simp only [List.foldl_cons, List.map_cons, concatLines]
    rw [signalStatement_eq, ih, signalLine_put, put_put]

theorem observed_put (g : KConfigCodeGeneratorBase) (s : String) (e : CfgEntry) :
    observed (g.put s) e = observed g e := rfl

theorem upperClampText_put (cs : CommonStructs) (g : KConfigCodeGeneratorBase) (s : String)
    (e : CfgEntry) : upperClampText cs (g.put s) e = upperClampText cs g e := rfl

theorem guardText_put (cs : CommonStructs) (g : KConfigCodeGeneratorBase) (s : String)
    (e : CfgEntry) : guardText cs (g.put s) e = guardText cs g e := rfl

theorem assignmentLine_put (cs : CommonStructs) (g : KConfigCodeGeneratorBase) (s : String)
    (e : CfgEntry) : assignmentLine cs (g.put s) e = assignmentLine cs g e := rfl

theorem closingText_put (g : KConfigCodeGeneratorBase) (s : String) (e : CfgEntry) :
    closingText (g.put s) e = closingText g e := rfl

theorem mutatorLowerBound_eq (cs : CommonStructs) (g : KConfigCodeGeneratorBase)
    (e : CfgEntry) :
    mutatorLowerBound cs g e = g.put (lowerClampText cs g e) := by
  unfold mutatorLowerBound lowerClampText lowerClampDue
  by_cases hmin : e.min = "" <;> by_cases hz : e.min = "0" <;>
    by_cases hu : cs.isUnsigned e.type = true <;>
    simp [hmin, hz, hu, put_put, put_empty, String.append_assoc]

theorem mutatorUpperBound_eq (cs : CommonStructs) (g : KConfigCodeGeneratorBase)
    (e : CfgEntry) :
    mutatorUpperBound cs g e = g.put (upperClampText cs g e) := by
  unfold mutatorUpperBound upperClampText
  by_cases hmax : e.max = "" <;>
    simp [hmax, put_put, put_empty, String.append_assoc]

theorem mutatorAssignment_eq (cs : CommonStructs) (g : KConfigCodeGeneratorBase)
    (e : CfgEntry) :
    mutatorAssignment cs g e =
      g.put (guardText cs g e ++ (if observed g e then " \x7b" else "") ++ "\n"
        ++ assignmentLine cs g e
        ++ concatLines (e.signalList.map (signalLine cs g))
        ++ closingText g e) := by
  unfold mutatorAssignment guardText assignmentLine closingText targetExpression
  simp only [createIfSetLogic_eq, foldl_signalStatement]
  by_cases ho : e.signalList ≠ [] ∨ g.m_cfg.generateProperties = true <;>
    by_cases hp : e.param = "" <;>
    simp [observed, ho, hp, put_put, put_empty, signalLine_put, String.append_assoc]

theorem memberMutatorBody_eq (cs : CommonStructs) (g : KConfigCodeGeneratorBase)
    (e : CfgEntry) :
    memberMutatorBody cs g e = g.put (mutatorText cs g e) := by
  unfold memberMutatorBody mutatorText
  simp only [mutatorLowerBound_eq, mutatorUpperBound_eq, mutatorAssignment_eq, put_put,
    upperClampText_put, guardText_put, assignmentLine_put, signalLine_put, closingText_put,
    observed_put, String.append_assoc]

theorem lowerClampText_no_min (cs : CommonStructs) (g : KConfigCodeGeneratorBase)
    (e : CfgEntry) (h : e.min = "") : lowerClampText cs g e = "" := by
  simp [lowerClampText, lowerClampDue, h]

theorem upperClampText_no_max (cs : CommonStructs) (g : KConfigCodeGeneratorBase)
    (e : CfgEntry) (h : e.max = "") : upperClampText cs g e = "" := by
  simp [upperClampText, h]

/-- The body of an entry is its lower clamp followed by the body of the entry without
`min`. -/
theorem mutatorText_split_min (cs : CommonStructs) (g : KConfigCodeGeneratorBase)
    (e : CfgEntry) (s : String) :
    mutatorText cs g e =
      lowerClampText cs g e ++ mutatorText cs { g with m_stream := s } { e with min := "" } := by
  have h0 : lowerClampText cs { g with m_stream := s } { e with min := "" } = "" :=
    lowerClampText_no_min _ _ _ rfl
  unfold mutatorText
  rw [h0]
  simp only [String.empty_append, String.append_assoc]
  rfl

/-- A text that is not empty changes the stream it is written to. -/
theorem append_ne_self (p x r : String) (hx : x ≠ "") : p ++ (x ++ r) ≠ p ++ r := by
  intro h
  apply hx
  have h2 := congrArg String.length h
  simp only [String.length_append] at h2
  have h3 : x.length = 0 := by omega
  apply String.ext
  exact List.length_eq_zero.mp h3

theorem lowerClampText_ne_empty (cs : CommonStructs) (g : KConfigCodeGeneratorBase)
    (e : CfgEntry) (h : lowerClampDue cs e) : lowerClampText cs g e ≠ "" := by
  intro h2
  have h3 := congrArg String.length h2
  simp [lowerClampText, h, String.length_append] at h3
  exact absurd h3.2 (by decide)

/-- C1: the mutator body of an entry is its lower-bound clamp block (the lines from
`if (v < <min>)` to `  v = <min>;` and the closing brace) followed by the body of the same
entry without `min`, where the block is present exactly when `min` is non-empty and it is not
the case that `min` is the string `"0"` and the type is unsigned; so the output differs from
that of the entry without `min` if and only if that condition holds, and with `min` equal to
`"0"` the block is emitted exactly for the types that are not unsigned. -/
theorem C1_lower_bound_clamp (cs : CommonStructs) (g : KConfigCodeGeneratorBase)
    (e : CfgEntry) :
    (memberMutatorBody cs g e).m_stream =
        g.m_stream
          ++ (if e.min ≠ "" ∧ ¬ (e.min = "0" ∧ cs.isUnsigned e.type = true) then
                whitespace g ++ "if (v < " ++ e.min ++ ")\n"
                  ++ whitespace g ++ "\x7b\n"
                  ++ whitespace g ++ cs.addDebugMethod g.m_cfg e.name
                  ++ ": value \" << v << \" is less than the minimum value of " ++ e.min
                  ++ "\";\n"
                  ++ whitespace g ++ "  v = " ++ e.min ++ ";\n"
                  ++ whitespace g ++ "\x7d\n"
              else "")
          ++ (memberMutatorBody cs { g with m_stream := "" } { e with min := "" }).m_stream
    ∧ ((memberMutatorBody cs g e).m_stream
          ≠ (memberMutatorBody cs g { e with min := "" }).m_stream
        ↔ (e.min ≠ "" ∧ ¬ (e.min = "0" ∧ cs.isUnsigned e.type = true)))
    ∧ (e.min = "0" →
        ((memberMutatorBody cs g e).m_stream
            ≠ (memberMutatorBody cs g { e with min := "" }).m_stream
          ↔ cs.isUnsigned e.type = false)) := by
  have hsplit : (memberMutatorBody cs g e).m_stream
      = g.m_stream ++ (lowerClampText cs g e
          ++ (memberMutatorBody cs { g with m_stream := "" } { e with min := "" }).m_stream) := by
    rw [memberMutatorBody_eq, memberMutatorBody_eq, put_m_stream,
      mutatorText_split_min cs g e ""]
    simp only [put_m_stream, String.empty_append]
  have hiff : ((memberMutatorBody cs g e).m_stream
      ≠ (memberMutatorBody cs g { e with min := "" }).m_stream) ↔ lowerClampDue cs e := by
    rw [memberMutatorBody_eq, memberMutatorBody_eq, put_m_stream, put_m_stream,
      mutatorText_split_min cs g e g.m_stream]
    constructor
    · intro hne
      by_contra hdue
      apply hne
      have h0 : lowerClampText cs g e = "" := by simp [lowerClampText, hdue]
      rw [h0, String.empty_append]
    · intro hdue
      exact append_ne_self _ _ _ (lowerClampText_ne_empty cs g e hdue)
  refine ⟨?_, hiff, ?_⟩
  · rw [hsplit, String.append_assoc]
    rfl
  · intro hz
    rw [hiff]
    unfold lowerClampDue
    simp [hz]

/-- C1 at an unsigned entry with `min` equal to `"0"`. -/
theorem C1_lower_bound_clamp_witness :
    volumeEntry.min = "0"
    ∧ ((memberMutatorBody sampleCommon (construct plainParameters) volumeEntry).m_stream
          ≠ (memberMutatorBody sampleCommon (construct plainParameters)
              { volumeEntry with min := "" }).m_stream
        ↔ sampleCommon.isUnsigned volumeEntry.type = false) :=
  ⟨by decide,
    (C1_lower_bound_clamp sampleCommon (construct plainParameters) volumeEntry).2.2
      (by decide)⟩

/-- C2: `createIfSetLogic` writes, for every expression `v` handed to it, exactly
`whitespace() + "if (" + C + "!" + m_this + immutableFunction(name, dpointer ? className : "")
+ "(" + A + "))"`, with `C` the clause `"v != " + v + " && "` when the entry has a signal or
`generateProperties` is set and empty otherwise, and `A` equal to `" i "` for an indexed
entry and empty otherwise; and `memberMutatorBody` writes this guard, for `v` the target
expression `m_this + varPath(name) + "[i]"?`, right after the bound clamps and right before
the optional brace and the line break. The immutability check is there in every case. -/
theorem C2_guard_line (cs : CommonStructs) (g : KConfigCodeGeneratorBase) (e : CfgEntry) :
    (∀ v : String,
      (createIfSetLogic cs g e v).m_stream =
        g.m_stream
          ++ (whitespace g ++ "if ("
            ++ (if e.signalList ≠ [] ∨ g.m_cfg.generateProperties = true then
                  "v != " ++ v ++ " && "
                else "")
            ++ "!" ++ g.m_this
            ++ cs.immutableFunction e.name
                (if g.m_cfg.dpointer then g.m_cfg.className else "")
            ++ "(" ++ (if e.param ≠ "" then " i " else "") ++ "))"))
    ∧ (memberMutatorBody cs g e).m_stream =
        g.m_stream ++ lowerClampText cs g e ++ upperClampText cs g e
          ++ (whitespace g ++ "if ("
            ++ (if e.signalList ≠ [] ∨ g.m_cfg.generateProperties = true then
                  "v != "
                    ++ (g.m_this ++ cs.varPath e.name g.m_cfg
                          ++ (if e.param ≠ "" then "[i]" else ""))
                    ++ " && "
                else "")
            ++ "!" ++ g.m_this
            ++ cs.immutableFunction e.name
                (if g.m_cfg.dpointer then g.m_cfg.className else "")
            ++ "(" ++ (if e.param ≠ "" then " i " else "") ++ "))")
          ++ (if e.signalList ≠ [] ∨ g.m_cfg.generateProperties = true then " \x7b" else "")
          ++ "\n"
          ++ assignmentLine cs g e
          ++ concatLines (e.signalList.map (signalLine cs g))
          ++ closingText g e := by
  constructor
  · intro v
    rw [createIfSetLogic_eq, put_m_stream]
    rfl
  · rw [memberMutatorBody_eq, put_m_stream]
    simp only [mutatorText, guardText, targetExpression, observed, String.append_assoc]

/-- C3: right after the assignment line `<target> = v;` the mutator body has exactly one line
per signal of the entry, in list order: the direct emission
`whitespace() + "  Q_EMIT " + m_this + name + "();"` for a signal with `modify` set, and the
accumulation `whitespace() + "  " + m_this + varPath("settingsChanged") + " |= " +
signalEnumName(name) + ";"` for one without; a single signal gives exactly its one line. -/
theorem C3_signal_lines (cs : CommonStructs) (g : KConfigCodeGeneratorBase) (e : CfgEntry) :
    (memberMutatorBody cs g e).m_stream =
        g.m_stream ++ lowerClampText cs g e ++ upperClampText cs g e
          ++ guardText cs g e ++ (if observed g e then " \x7b" else "") ++ "\n"
          ++ (whitespace g ++ "  " ++ targetExpression cs g e ++ " = v;\n")
          ++ concatLines (e.signalList.map fun sk =>
              if sk.modify then
                whitespace g ++ "  Q_EMIT " ++ g.m_this ++ sk.name ++ "();\n"
              else
                whitespace g ++ "  " ++ g.m_this ++ cs.varPath "settingsChanged" g.m_cfg
                  ++ " |= " ++ cs.signalEnumName sk.name ++ ";\n")
          ++ closingText g e
    ∧ (e.signalList.map (signalLine cs g)).length = e.signalList.length
    ∧ (∀ sk : Signal, e.signalList = [sk] →
        concatLines (e.signalList.map (signalLine cs g)) =
          if sk.modify then
            whitespace g ++ "  Q_EMIT " ++ g.m_this ++ sk.name ++ "();\n"
          else
            whitespace g ++ "  " ++ g.m_this ++ cs.varPath "settingsChanged" g.m_cfg
              ++ " |= " ++ cs.signalEnumName sk.name ++ ";\n") := by
  refine ⟨?_, by simp, ?_⟩
  · have hline : signalLine cs g = fun sk =>
        if sk.modify then
          whitespace g ++ "  Q_EMIT " ++ g.m_this ++ sk.name ++ "();\n"
        else
          whitespace g ++ "  " ++ g.m_this ++ cs.varPath "settingsChanged" g.m_cfg
            ++ " |= " ++ cs.signalEnumName sk.name ++ ";\n" := rfl
    rw [memberMutatorBody_eq, put_m_stream, ← hline]
    simp only [mutatorText, assignmentLine, String.append_assoc]
  · intro sk hsk
    rw [hsk]
    simp only [List.map_cons, List.map_nil, concatLines, String.append_empty]
    rfl

/-- C3 at an entry with the single signal `colorChanged`, emitted directly. -/
theorem C3_signal_lines_witness :
    ({ colorEntry with signalList := [⟨"colorChanged", true⟩] } : CfgEntry).signalList
        = [⟨"colorChanged", true⟩]
    ∧ concatLines
        (({ colorEntry with signalList := [⟨"colorChanged", true⟩] } : CfgEntry).signalList.map
          (signalLine sampleCommon (construct plainParameters)))
      = "  Q_EMIT colorChanged();\n" :=
  ⟨rfl,
    (C3_signal_lines sampleCommon (construct plainParameters)
      { colorEntry with signalList := [⟨"colorChanged", true⟩] }).2.2
      ⟨"colorChanged", true⟩ rfl⟩

/-! ### Text facts used by the block claims -/

/-- Two suffixes of one text that are equally long are the same text. -/
theorem suffix_eq_of_length {l a b : List Char} (ha : a <:+ l) (hb : b <:+ l)
    (hlen : a.length = b.length) : a = b :=
  (List.suffix_of_suffix_length_le ha hb (le_of_eq hlen)).eq_of_length hlen

theorem whitespaceLoop_data (k : Nat) :
    ∀ spaces : String,
      (whitespaceLoop k spaces).data = spaces.data ++ List.replicate k (Char.ofNat 32) := by
  induction k with
  | zero => intro spaces; simp [whitespaceLoop]
  | succ k ih =>
    intro spaces
    rw [whitespaceLoop, ih, String.data_push, List.replicate_succ, List.append_assoc]
    rfl

theorem whitespace_data (g : KConfigCodeGeneratorBase) :
    (whitespace g).data = List.replicate g.m_indentLevel.toNat (Char.ofNat 32) := by
  unfold whitespace
  rw [whitespaceLoop_data]
  rfl

theorem guardText_suffix (cs : CommonStructs) (g : KConfigCodeGeneratorBase) (e : CfgEntry) :
    "))".data <:+ (guardText cs g e).data := by
  unfold guardText
  rw [String.data_append]
  exact List.suffix_append _ _

theorem assignmentLine_suffix (cs : CommonStructs) (g : KConfigCodeGeneratorBase)
    (e : CfgEntry) : ";\n".data <:+ (assignmentLine cs g e).data := by
  have h : assignmentLine cs g e
      = (whitespace g ++ "  " ++ targetExpression cs g e ++ " = v") ++ ";\n" := by
    unfold assignmentLine
    rw [String.append_assoc _ " = v" ";\n"]
    rfl
  rw [h, String.data_append]
  exact List.suffix_append _ _

/-- C4: the guard line of the mutator body ends with the opening brace if and only if the
closing line `whitespace() + "}"` is the last line of the output, and both hold exactly when
the entry has a signal or `generateProperties` is set. The signal lines stand between the
assignment and that closing line; when no brace is opened, the guard is followed by the
assignment line and nothing else. -/
theorem C4_brace_block (cs : CommonStructs) (g : KConfigCodeGeneratorBase) (e : CfgEntry) :
    (memberMutatorBody cs g e).m_stream =
        g.m_stream ++ lowerClampText cs g e ++ upperClampText cs g e
          ++ (guardText cs g e ++ (if observed g e then " \x7b" else "")) ++ "\n"
          ++ assignmentLine cs g e
          ++ concatLines (e.signalList.map (signalLine cs g))
          ++ (if observed g e then whitespace g ++ "\x7d\n" else "")
    ∧ (" \x7b".data <:+ (guardText cs g e ++ (if observed g e then " \x7b" else "")).data
        ↔ observed g e)
    ∧ ((whitespace g ++ "\x7d\n").data <:+ (memberMutatorBody cs g e).m_stream.data
        ↔ observed g e)
    ∧ (observed g e ↔ (e.signalList ≠ [] ∨ g.m_cfg.generateProperties = true))
    ∧ (¬ observed g e →
        (memberMutatorBody cs g e).m_stream =
          g.m_stream ++ lowerClampText cs g e ++ upperClampText cs g e
            ++ guardText cs g e ++ "\n" ++ assignmentLine cs g e) := by
  have hout : (memberMutatorBody cs g e).m_stream =
        g.m_stream ++ lowerClampText cs g e ++ upperClampText cs g e
          ++ (guardText cs g e ++ (if observed g e then " \x7b" else "")) ++ "\n"
          ++ assignmentLine cs g e
          ++ concatLines (e.signalList.map (signalLine cs g))
          ++ (if observed g e then whitespace g ++ "\x7d\n" else "") := by
    rw [memberMutatorBody_eq, put_m_stream]
    simp only [mutatorText, closingText, String.append_assoc]
  have hplain : ¬ observed g e →
        (memberMutatorBody cs g e).m_stream =
          g.m_stream ++ lowerClampText cs g e ++ upperClampText cs g e
            ++ guardText cs g e ++ "\n" ++ assignmentLine cs g e := by
    intro hno
    have hnil : e.signalList = [] := by
      by_contra hne
      exact hno (Or.inl hne)
    rw [hout, hnil]
    simp only [if_neg hno, List.map_nil, concatLines, String.append_empty]
  refine ⟨hout, ?_, ?_, Iff.rfl, hplain⟩
  · constructor
    · intro hsuf
      by_contra hno
      rw [if_neg hno, String.append_empty] at hsuf
      have heq := suffix_eq_of_length hsuf (guardText_suffix cs g e) rfl
      exact absurd heq (by decide)
    · intro ho
      rw [if_pos ho, String.data_append]
      exact List.suffix_append _ _
  · constructor
    · intro hsuf
      by_contra hno
      rw [hplain hno] at hsuf
      have h1 : "\x7d\n".data <:+ (whitespace g ++ "\x7d\n").data := by
        rw [String.data_append]
        exact List.suffix_append _ _
      have h2 : ";\n".data <:+
          (g.m_stream ++ lowerClampText cs g e ++ upperClampText cs g e
            ++ guardText cs g e ++ "\n" ++ assignmentLine cs g e).data := by
        rw [String.data_append]
        exact (assignmentLine_suffix cs g e).trans (List.suffix_append _ _)
      have heq := suffix_eq_of_length (h1.trans hsuf) h2 rfl
      exact absurd heq (by decide)
    · intro ho
      rw [hout]
      simp only [if_pos ho]
      rw [String.data_append _ (whitespace g ++ "\x7d\n")]
      exact List.suffix_append _ _

/-- C4 at the scalar entry without signals, with properties switched off: no brace is
opened and the guard is followed by the assignment alone. -/
theorem C4_brace_block_witness :
    ¬ observed (construct plainParameters) colorEntry
    ∧ (memberMutatorBody sampleCommon (construct plainParameters) colorEntry).m_stream =
        (construct plainParameters).m_stream
          ++ lowerClampText sampleCommon (construct plainParameters) colorEntry
          ++ upperClampText sampleCommon (construct plainParameters) colorEntry
          ++ guardText sampleCommon (construct plainParameters) colorEntry ++ "\n"
          ++ assignmentLine sampleCommon (construct plainParameters) colorEntry :=
  ⟨by decide,
    (C4_brace_block sampleCommon (construct plainParameters) colorEntry).2.2.2.2 (by decide)⟩

/-- The body of an entry is its two clamps followed by the body of the entry without
bounds. -/
theorem mutatorText_split_bounds (cs : CommonStructs) (g : KConfigCodeGeneratorBase)
    (e : CfgEntry) (s : String) :
    mutatorText cs g e =
      lowerClampText cs g e ++ upperClampText cs g e
        ++ mutatorText cs { g with m_stream := s } { e with min := "", max := "" } := by
  have h0 : lowerClampText cs { g with m_stream := s } { e with min := "", max := "" } = "" :=
    lowerClampText_no_min _ _ _ rfl
  have h1 : upperClampText cs { g with m_stream := s } { e with min := "", max := "" } = "" :=
    upperClampText_no_max _ _ _ rfl
  unfold mutatorText
  rw [h0, h1]
  simp only [String.empty_append, String.append_assoc]
  rfl

/-- The text written by the two bound checks of `memberMutatorBody`. -/
theorem boundChecks_eq (cs : CommonStructs) (g : KConfigCodeGeneratorBase) (e : CfgEntry) :
    (mutatorUpperBound cs (mutatorLowerBound cs { g with m_stream := "" } e) e).m_stream
      = lowerClampText cs g e ++ upperClampText cs g e := by
  rw [mutatorLowerBound_eq, mutatorUpperBound_eq, upperClampText_put, put_put, put_m_stream,
    String.empty_append]
  rfl

/-- An occurrence of a pattern in `x ++ c :: y`, where the character `c` is not in the
pattern, lies in `x` or in `y`. -/
theorem infix_of_separator {pat : List Char} {c : Char} (hc : c ∉ pat) :
    ∀ (x y : List Char), pat <:+: x ++ c :: y → pat <:+: x ∨ pat <:+: y := by
  intro x
  induction x with
  | nil =>
    intro y h
    rw [List.nil_append, List.infix_cons_iff] at h
    rcases h with h | h
    · cases pat with
      | nil => exact Or.inl List.nil_infix
      | cons a rest =>
        obtain ⟨t, ht⟩ := h
        have hac : a = c := by
          rw [List.cons_append] at ht
          exact (List.cons.inj ht).1
        exact absurd (hac ▸ List.mem_cons_self a rest) hc
    · exact Or.inr h
  | cons a x ih =>
    intro y h
    rw [List.cons_append, List.infix_cons_iff] at h
    rcases h with h | h
    · by_cases hl : pat.length ≤ (a :: x).length
      · have h2 : a :: x <+: a :: (x ++ c :: y) := by
          rw [← List.cons_append]
          exact List.prefix_append _ _
        exact Or.inl (List.prefix_of_prefix_length_le h h2 hl).isInfix
      · have h2 : (a :: x) ++ [c] <+: a :: (x ++ c :: y) := ⟨y, by simp⟩
        have h3 : (a :: x) ++ [c] <+: pat :=
          List.prefix_of_prefix_length_le h2 h (by
            simp only [List.length_append, List.length_cons, List.length_nil] at hl ⊢
            omega)
        exact absurd (h3.subset (by simp)) hc
    · rcases ih y h with h | h
      · exact Or.inl (List.infix_cons h)
      · exact Or.inr h

/-- An occurrence of a pattern in `lead ++ x`, where no character of `lead` is the first
character of the pattern, lies in `x`. -/
theorem infix_of_lead {first : Char} {rest : List Char} :
    ∀ (lead x : List Char), (∀ c ∈ lead, c ≠ first) →
      first :: rest <:+: lead ++ x → first :: rest <:+: x := by
  intro lead
  induction lead with
  | nil => intro x _ h; exact h
  | cons a lead ih =>
    intro x hlead h
    rw [List.cons_append, List.infix_cons_iff] at h
    rcases h with h | h
    · obtain ⟨t, ht⟩ := h
      rw [List.cons_append] at ht
      exact absurd (List.cons.inj ht).1.symm (hlead a (List.mem_cons_self a lead))
    · exact ih x (fun c hc => hlead c (List.mem_cons_of_mem a hc)) h

/-- The separator step on strings: `sep` is the one character `c`. -/
theorem infix_of_separator_string {pat : List Char} {c : Char} (hc : c ∉ pat)
    (x sep y : String) (hsep : sep.data = [c])
    (h : pat <:+: (x ++ (sep ++ y)).data) : pat <:+: x.data ∨ pat <:+: y.data := by
  rw [String.data_append, String.data_append, hsep] at h
  exact infix_of_separator hc x.data y.data h

theorem not_infix_of_no_gt (x : String) (hx : '>' ∉ x.data) :
    ¬ "if (v > ".data <:+: x.data :=
  fun h => hx (h.subset (by decide))

theorem whitespace_no_gt (g : KConfigCodeGeneratorBase) : '>' ∉ (whitespace g).data := by
  rw [whitespace_data, List.mem_replicate]
  rintro ⟨_, h⟩
  exact absurd h (by decide)

theorem whitespace_lead (g : KConfigCodeGeneratorBase) :
    ∀ c ∈ (whitespace g).data, c ≠ 'i' := by
  intro c hc
  rw [whitespace_data, List.mem_replicate] at hc
  rw [hc.2]
  decide

/-- The lower clamp block cut at characters that do not occur in `if (v > `: the cuts leave
the three copies of `min` and the diagnostic call each in a piece of its own. -/
theorem lowerClampText_pieces (cs : CommonStructs) (g : KConfigCodeGeneratorBase)
    (e : CfgEntry) (hdue : lowerClampDue cs e) :
    lowerClampText cs g e =
      (whitespace g ++ "if (v ") ++ ("<" ++ ((" " ++ e.min) ++ (")" ++
      (("\n" ++ whitespace g ++ "\x7b") ++ ("\n" ++
      ((whitespace g ++ cs.addDebugMethod g.m_cfg e.name) ++ (":" ++
      (" value \" << v << \" is less than the minimum value " ++ ("o" ++
      (("f " ++ e.min) ++ ("\"" ++
      ((";\n" ++ whitespace g ++ "  v ") ++ ("=" ++
      ((" " ++ e.min) ++ (";" ++
      ("\n" ++ whitespace g ++ "\x7d\n")))))))))))))))) := by
  unfold lowerClampText
  rw [if_pos hdue]
  simp only [String.append_assoc]
  rfl

/-- The lower clamp block contains `if (v > ` only where `min` or the diagnostic call,
which it echoes, contains it. -/
theorem lowerClampText_occurrence (cs : CommonStructs) (g : KConfigCodeGeneratorBase)
    (e : CfgEntry) (hocc : "if (v > ".data <:+: (lowerClampText cs g e).data) :
    lowerClampDue cs e
      ∧ ("if (v > ".data <:+: e.min.data
          ∨ "if (v > ".data <:+: (cs.addDebugMethod g.m_cfg e.name).data) := by
  have hdue : lowerClampDue cs e := by
    by_contra hno
    have h0 : lowerClampText cs g e = "" := by simp [lowerClampText, hno]
    rw [h0] at hocc
    exact absurd hocc (by decide)
  refine ⟨hdue, ?_⟩
  have hws := whitespace_no_gt g
  have hmin : ∀ lead : String, (∀ c ∈ lead.data, c ≠ 'i') →
      "if (v > ".data <:+: (lead ++ e.min).data → "if (v > ".data <:+: e.min.data := by
    intro lead hlead h
    rw [String.data_append] at h
    exact infix_of_lead lead.data e.min.data hlead h
  rw [lowerClampText_pieces cs g e hdue] at hocc
  rcases infix_of_separator_string (c := '<') (by decide) _ "<" _ rfl hocc with h | hocc
  · refine absurd h (not_infix_of_no_gt _ ?_)
    simp only [String.data_append, List.mem_append, not_or]
    exact ⟨hws, by decide⟩
  rcases infix_of_separator_string (c := ')') (by decide) _ ")" _ rfl hocc with h | hocc
  · exact Or.inl (hmin " " (by decide) h)
  rcases infix_of_separator_string (c := '\n') (by decide) _ "\n" _ rfl hocc with h | hocc
  · refine absurd h (not_infix_of_no_gt _ ?_)
    simp only [String.data_append, List.mem_append, not_or]
    exact ⟨⟨by decide, hws⟩, by decide⟩
  rcases infix_of_separator_string (c := ':') (by decide) _ ":" _ rfl hocc with h | hocc
  · rw [String.data_append] at h
    exact Or.inr (infix_of_lead _ _ (whitespace_lead g) h)
  rcases infix_of_separator_string (c := 'o') (by decide) _ "o" _ rfl hocc with h | hocc
  · exact absurd h (by decide)
  rcases infix_of_separator_string (c := Char.ofNat 34) (by decide) _ "\"" _ rfl hocc
    with h | hocc
  · exact Or.inl (hmin "f " (by decide) h)
  rcases infix_of_separator_string (c := '=') (by decide) _ "=" _ rfl hocc with h | hocc
  · refine absurd h (not_infix_of_no_gt _ ?_)
    simp only [String.data_append, List.mem_append, not_or]
    exact ⟨⟨by decide, hws⟩, by decide⟩
  rcases infix_of_separator_string (c := ';') (by decide) _ ";" _ rfl hocc with h | hocc
  · exact Or.inl (hmin " " (by decide) h)
  · refine absurd hocc (not_infix_of_no_gt _ ?_)
    simp only [String.data_append, List.mem_append, not_or]
    exact ⟨⟨by decide, hws⟩, by decide⟩

/-- The lower clamp block, when it is due, echoes `min` and the diagnostic call. -/
theorem lowerClampText_echo (cs : CommonStructs) (g : KConfigCodeGeneratorBase)
    (e : CfgEntry) (hdue : lowerClampDue cs e) :
    e.min.data <:+: (lowerClampText cs g e).data
      ∧ (cs.addDebugMethod g.m_cfg e.name).data <:+: (lowerClampText cs g e).data := by
  have h1 : lowerClampText cs g e =
      (whitespace g ++ "if (v < ") ++ (e.min ++ (")\n"
        ++ whitespace g ++ "\x7b\n"
        ++ whitespace g ++ cs.addDebugMethod g.m_cfg e.name
        ++ ": value \" << v << \" is less than the minimum value of " ++ e.min ++ "\";\n"
        ++ whitespace g ++ "  v = " ++ e.min ++ ";\n"
        ++ whitespace g ++ "\x7d\n")) := by
    unfold lowerClampText
    rw [if_pos hdue]
    simp only [String.append_assoc]
  have h2 : lowerClampText cs g e =
      (whitespace g ++ "if (v < " ++ e.min ++ ")\n"
        ++ whitespace g ++ "\x7b\n"
        ++ whitespace g) ++ (cs.addDebugMethod g.m_cfg e.name
        ++ (": value \" << v << \" is less than the minimum value of " ++ e.min ++ "\";\n"
          ++ whitespace g ++ "  v = " ++ e.min ++ ";\n"
          ++ whitespace g ++ "\x7d\n")) := by
    unfold lowerClampText
    rw [if_pos hdue]
    simp only [String.append_assoc]
  constructor
  · rw [h1, String.data_append, String.data_append]
    exact List.infix_append' _ _ _
  · rw [h2, String.data_append, String.data_append]
    exact List.infix_append' _ _ _

/-- C5, as stated, fails in its second half: for an entry without `max` whose `min` is the
text `0) if (v > 9`, the lower clamp echoes `min`, so the text written by the two bound
checks contains `if (v > `. -/
theorem C5_upper_bound_clamp_counterexample :
    ({ volumeEntry with type := "Int", min := "0) if (v > 9", max := "" } : CfgEntry).max = ""
    ∧ "if (v > ".data <:+:
        (mutatorUpperBound sampleCommon
          (mutatorLowerBound sampleCommon { construct plainParameters with m_stream := "" }
            { volumeEntry with type := "Int", min := "0) if (v > 9", max := "" })
          { volumeEntry with type := "Int", min := "0) if (v > 9", max := "" }).m_stream.data := by
  decide

/-- C5, amended: whatever the type and `min` of the entry, when `max` is non-empty the
mutator body has, between the lower clamp and the guard, the upper-bound clamp block with
the line `if (v > <max>)` and the clamping line `  v = <max>;`, and when `max` is empty it
has nothing there: the two bound checks then write the lower clamp text alone, which
contains `if (v > ` if and only if the lower clamp is emitted and `min` or the text of the
diagnostic call, both echoed by it, contains `if (v > `. -/
theorem C5_upper_bound_clamp (cs : CommonStructs) (g : KConfigCodeGeneratorBase)
    (e : CfgEntry) :
    (memberMutatorBody cs g e).m_stream =
        g.m_stream ++ lowerClampText cs g e
          ++ (if e.max ≠ "" then
                "\n" ++ whitespace g ++ "if (v > " ++ e.max ++ ")\n"
                  ++ whitespace g ++ "\x7b\n"
                  ++ whitespace g ++ cs.addDebugMethod g.m_cfg e.name
                  ++ ": value \" << v << \" is greater than the maximum value of " ++ e.max
                  ++ "\";\n"
                  ++ whitespace g ++ "  v = " ++ e.max ++ ";\n"
                  ++ whitespace g ++ "\x7d\n\n"
              else "")
          ++ (memberMutatorBody cs { g with m_stream := "" }
                { e with min := "", max := "" }).m_stream
    ∧ (e.max = "" →
        (mutatorUpperBound cs (mutatorLowerBound cs { g with m_stream := "" } e) e).m_stream
            = lowerClampText cs g e
        ∧ ("if (v > ".data <:+:
              (mutatorUpperBound cs
                (mutatorLowerBound cs { g with m_stream := "" } e) e).m_stream.data
            ↔ (e.min ≠ "" ∧ ¬ (e.min = "0" ∧ cs.isUnsigned e.type = true))
              ∧ ("if (v > ".data <:+: e.min.data
                  ∨ "if (v > ".data <:+: (cs.addDebugMethod g.m_cfg e.name).data))) := by
  constructor
  · rw [memberMutatorBody_eq, memberMutatorBody_eq, put_m_stream,
      mutatorText_split_bounds cs g e ""]
    simp only [upperClampText, put_m_stream, String.empty_append, String.append_assoc]
  · intro hmax
    have hpart :
        (mutatorUpperBound cs (mutatorLowerBound cs { g with m_stream := "" } e) e).m_stream
          = lowerClampText cs g e := by
      rw [boundChecks_eq, upperClampText_no_max cs g e hmax, String.append_empty]
    refine ⟨hpart, ?_⟩
    rw [hpart]
    constructor
    · exact lowerClampText_occurrence cs g e
    · rintro ⟨hdue, hmin | hdbg⟩
      · exact hmin.trans (lowerClampText_echo cs g e hdue).1
      · exact hdbg.trans (lowerClampText_echo cs g e hdue).2

/-- C5, amended, at a signed entry without `max` whose `min` is `x->lo()`: the lower clamp
is written and contains no `if (v > `. -/
theorem C5_upper_bound_clamp_witness :
    ({ volumeEntry with type := "Int", min := "x->lo()", max := "" } : CfgEntry).max = ""
    ∧ ¬ "if (v > ".data <:+:
          (mutatorUpperBound sampleCommon
            (mutatorLowerBound sampleCommon { construct richParameters with m_stream := "" }
              { volumeEntry with type := "Int", min := "x->lo()", max := "" })
            { volumeEntry with type := "Int", min := "x->lo()", max := "" }).m_stream.data :=
  ⟨rfl, fun h =>
    absurd
      (((C5_upper_bound_clamp sampleCommon (construct richParameters)
        { volumeEntry with type := "Int", min := "x->lo()", max := "" }).2 rfl).2.mp h).2
      (by decide)⟩

/-! ### Accessor body -/

/-- C6: when no enum cast applies (`useEnumTypes` is off, or the type is not `"Enum"`), the
accessor body is exactly `"return " + m_this + varPath(name) + S + ";\n"`, with `S` equal to
`"[i]"` for an indexed entry and empty for a scalar one. -/
theorem C6_accessor_plain (cs : CommonStructs) (g : KConfigCodeGeneratorBase) (e : CfgEntry)
    (globalEnums : Bool) (hcast : g.m_cfg.useEnumTypes = false ∨ e.type ≠ "Enum") :
    memberAccessorBody cs g e globalEnums =
        "return " ++ g.m_this ++ cs.varPath e.name g.m_cfg
          ++ (if e.param ≠ "" then "[i]" else "") ++ ";\n"
    ∧ (e.param = "" →
        memberAccessorBody cs g e globalEnums =
          "return " ++ g.m_this ++ cs.varPath e.name g.m_cfg ++ ";\n")
    ∧ (e.param ≠ "" →
        memberAccessorBody cs g e globalEnums =
          "return " ++ g.m_this ++ cs.varPath e.name g.m_cfg ++ "[i]" ++ ";\n") := by
  have hno : (g.m_cfg.useEnumTypes && decide (e.type = "Enum")) = false := by
    rcases hcast with h | h
    · simp [h]
    · simp [h]
  have hmain : memberAccessorBody cs g e globalEnums =
        "return " ++ g.m_this ++ cs.varPath e.name g.m_cfg
          ++ (if e.param ≠ "" then "[i]" else "") ++ ";\n" := by
    unfold memberAccessorBody
    by_cases hp : e.param = "" <;> simp [hno, hp, String.append_assoc]
  refine ⟨hmain, ?_, ?_⟩
  · intro hp
    rw [hmain]
    simp [hp]
  · intro hp
    rw [hmain]
    simp [hp]

/-- C6 at the indexed entry, with enum types switched off. -/
theorem C6_accessor_plain_witness :
    ((construct plainParameters).m_cfg.useEnumTypes = false ∨ volumeEntry.type ≠ "Enum")
    ∧ volumeEntry.param ≠ ""
    ∧ memberAccessorBody sampleCommon (construct plainParameters) volumeEntry true =
        "return " ++ (construct plainParameters).m_this
          ++ sampleCommon.varPath volumeEntry.name (construct plainParameters).m_cfg
          ++ "[i]" ++ ";\n" :=
  ⟨by decide, by decide,
    (C6_accessor_plain sampleCommon (construct plainParameters) volumeEntry true
      (by decide)).2.2 (by decide)⟩

/-- C7: for an entry of type `"Enum"` the accessor body is
`"return static_cast<" + enumType(e, globalEnums) + ">(" + E + ");\n"` when `useEnumTypes` is
set and `"return " + E + ";\n"` when it is not, and for every other type it is
`"return " + E + ";\n"` whatever `useEnumTypes` is, with `E` the uncast expression
`m_this + varPath(name) + "[i]"?`; the opening of the cast and its closing parenthesis are
written under one and the same condition. -/
theorem C7_accessor_enum_cast (cs : CommonStructs) (g : KConfigCodeGeneratorBase)
    (e : CfgEntry) (globalEnums : Bool) :
    memberAccessorBody cs g e globalEnums =
        (if e.type = "Enum" then
          if g.m_cfg.useEnumTypes = true then
            "return static_cast<" ++ cs.enumType e globalEnums ++ ">("
              ++ (g.m_this ++ cs.varPath e.name g.m_cfg ++ (if e.param ≠ "" then "[i]" else ""))
              ++ ");\n"
          else
            "return "
              ++ (g.m_this ++ cs.varPath e.name g.m_cfg ++ (if e.param ≠ "" then "[i]" else ""))
              ++ ";\n"
        else
          "return "
            ++ (g.m_this ++ cs.varPath e.name g.m_cfg ++ (if e.param ≠ "" then "[i]" else ""))
            ++ ";\n")
    ∧ memberAccessorBody cs g e globalEnums =
        "return "
          ++ (if g.m_cfg.useEnumTypes = true ∧ e.type = "Enum" then
                "static_cast<" ++ cs.enumType e globalEnums ++ ">(" else "")
          ++ targetExpression cs g e
          ++ (if g.m_cfg.useEnumTypes = true ∧ e.type = "Enum" then ")" else "")
          ++ ";\n" := by
  unfold memberAccessorBody targetExpression
  constructor <;>
    by_cases ht : e.type = "Enum" <;> by_cases hu : g.m_cfg.useEnumTypes = true <;>
    by_cases hp : e.param = "" <;> simp [ht, hu, hp, String.append_assoc] <;> rfl

/-! ### Immutability body -/

/-- Passing over the rest of a match: `k` pending characters are dropped. -/
theorem replaceScan_skip (before after : List Char) (xs : List Char) :
    ∀ (k : Nat) (b : List Char), xs.length = k →
      replaceScan before after k (xs ++ b) = replaceScan before after 0 b := by
  induction xs with
  | nil =>
    intro k b hk
    simp only [List.length_nil] at hk
    subst hk
    rfl
  | cons x xs ih =>
    intro k b hk
    simp only [List.length_cons] at hk
    subst hk
    simp only [List.cons_append, replaceScan]
    exact ih _ b rfl

/-- A subject in which `before` does not occur is left as it is. -/
theorem replaceScan_no_occurrence (before after : List Char) (subject : List Char)
    (h : ¬ before <:+: subject) : replaceScan before after 0 subject = subject := by
  induction subject with
  | nil => rfl
  | cons c rest ih =>
    have hpre : before.isPrefixOf (c :: rest) = false := by
      by_contra hp
      simp only [Bool.not_eq_false] at hp
      exact h (List.isPrefixOf_iff_prefix.mp hp).isInfix
    simp only [replaceScan, hpre]
    rw [ih (fun hin => h (List.infix_cons hin))]
    rfl

/-- The leftmost occurrence of `before` is replaced, and the scan resumes behind it. -/
theorem replaceScan_first_occurrence (before after : List Char) (hne : before ≠ [])
    (b : List Char) :
    ∀ a : List Char, ¬ before <:+: a ++ before.dropLast →
      replaceScan before after 0 (a ++ before ++ b)
        = a ++ after ++ replaceScan before after 0 b := by
  intro a
  induction a with
  | nil =>
    intro _
    cases before with
    | nil => exact absurd rfl hne
    | cons c rest =>
      have hpre : (c :: rest).isPrefixOf (c :: (rest ++ b)) = true := by
        rw [List.isPrefixOf_iff_prefix, ← List.cons_append]
        exact List.prefix_append _ _
      have hlen : rest.length = (c :: rest).length - 1 := by simp
      show replaceScan (c :: rest) after 0 (c :: (rest ++ b))
        = after ++ replaceScan (c :: rest) after 0 b
      simp only [replaceScan, hpre, if_true]
      rw [replaceScan_skip (c :: rest) after rest _ b hlen]
  | cons x a ih =>
    intro hfirst
    have hpre : before.isPrefixOf (x :: (a ++ before ++ b)) = false := by
      by_contra hp
      simp only [Bool.not_eq_false] at hp
      have h1 : before <+: x :: (a ++ before ++ b) := List.isPrefixOf_iff_prefix.mp hp
      have h2 : (x :: a) ++ before.dropLast <+: x :: (a ++ before ++ b) := by
        refine ⟨[before.getLast hne] ++ b, ?_⟩
        have hb := List.dropLast_append_getLast hne
        calc (x :: a) ++ before.dropLast ++ ([before.getLast hne] ++ b)
            = (x :: a) ++ (before.dropLast ++ [before.getLast hne]) ++ b := by
              simp only [List.append_assoc]
          _ = x :: (a ++ before ++ b) := by rw [hb]; rfl
      have h3 : before.length ≤ ((x :: a) ++ before.dropLast).length := by
        have hpos : 0 < before.length := List.length_pos.mpr hne
        simp only [List.length_append, List.length_cons, List.length_dropLast]
        omega
      exact hfirst (List.prefix_of_prefix_length_le h1 h2 h3).isInfix
    have hrest : ¬ before <:+: a ++ before.dropLast := fun hin =>
      hfirst (by rw [List.cons_append]; exact List.infix_cons hin)
    have hstep : replaceScan before after 0 (x :: (a ++ before ++ b))
        = x :: replaceScan before after 0 (a ++ before ++ b) := by
      simp only [replaceScan, hpre]
      rfl
    calc replaceScan before after 0 (x :: a ++ before ++ b)
        = replaceScan before after 0 (x :: (a ++ before ++ b)) := rfl
      _ = x :: replaceScan before after 0 (a ++ before ++ b) := hstep
      _ = x :: (a ++ after ++ replaceScan before after 0 b) := by rw [ih hrest]
      _ = x :: a ++ after ++ replaceScan before after 0 b := rfl

theorem qReplace_no_occurrence (subject before after : String)
    (h : ¬ before.data <:+: subject.data) : qReplace subject before after = subject := by
  unfold qReplace
  rw [replaceScan_no_occurrence _ _ _ h]

theorem qReplace_first_occurrence (a b before after : String) (hne : before ≠ "")
    (h : ¬ before.data <:+: a.data ++ before.data.dropLast) :
    qReplace (a ++ before ++ b) before after = a ++ after ++ qReplace b before after := by
  have hne2 : before.data ≠ [] := fun h0 => hne (String.ext h0)
  unfold qReplace
  apply String.ext
  simp only [String.data_append]
  exact replaceScan_first_occurrence before.data after.data hne2 b.data a.data h

theorem placeholder_ne_empty (param : String) : "$(" ++ param ++ ")" ≠ "" := by
  intro h
  have h2 := congrArg String.length h
  simp [String.length_append] at h2
  exact absurd h2.2 (by decide)

/-- C8: for an indexed entry the immutability body is
`whitespace() + "return " + m_this + "isImmutable( QStringLiteral( \"" + K + "\" ).arg( " + A
+ " ) );\n"`, where `K` is `paramName` with the placeholder `"$(" + param + ")"` replaced by
`"%1"` (`K` is `paramName` itself when the placeholder does not occur, and otherwise the
leftmost occurrence is replaced and the replacement goes on behind it), and `A` is
`"QLatin1String( " + enumName(param) + "ToString[i] )"` for an enum parameter with global
enums, `"QLatin1String( " + enumName(param) + "::enumToString[i] )"` for an enum parameter
without, and `"i"` for a parameter that is not an enum. -/
theorem C8_immutable_indexed (cs : CommonStructs) (g : KConfigCodeGeneratorBase) (e : CfgEntry)
    (globalEnums : Bool) (hparam : e.param ≠ "") :
    (memberImmutableBody cs g e globalEnums).m_stream =
        g.m_stream
          ++ (whitespace g ++ "return " ++ g.m_this ++ "isImmutable( QStringLiteral( \""
            ++ qReplace e.paramName ("$(" ++ e.param ++ ")") "%1"
            ++ "\" ).arg( "
            ++ (if e.paramType = "Enum" then
                  if globalEnums = true then
                    "QLatin1String( " ++ cs.enumName e.param ++ "ToString[i] )"
                  else
                    "QLatin1String( " ++ cs.enumName e.param ++ "::enumToString[i] )"
                else "i")
            ++ " ) );\n")
    ∧ (¬ ("$(" ++ e.param ++ ")").data <:+: e.paramName.data →
        qReplace e.paramName ("$(" ++ e.param ++ ")") "%1" = e.paramName)
    ∧ (∀ a b : String, e.paramName = a ++ ("$(" ++ e.param ++ ")") ++ b →
        ¬ ("$(" ++ e.param ++ ")").data <:+: a.data ++ ("$(" ++ e.param ++ ")").data.dropLast →
        qReplace e.paramName ("$(" ++ e.param ++ ")") "%1"
          = a ++ "%1" ++ qReplace b ("$(" ++ e.param ++ ")") "%1") := by
  refine ⟨?_, qReplace_no_occurrence _ _ _, ?_⟩
  · unfold memberImmutableBody
    by_cases ht : e.paramType = "Enum" <;> cases globalEnums <;>
      simp [hparam, ht, put_put, String.append_assoc] <;> rfl
  · intro a b hab hfirst
    rw [hab]
    exact qReplace_first_occurrence a b _ _ (placeholder_ne_empty e.param) hfirst

/-- C8 at the entry indexed by the enum parameter `Channel`, whose key template is
`Volume$(Channel)`. -/
theorem C8_immutable_indexed_witness :
    volumeEntry.param ≠ ""
    ∧ (memberImmutableBody sampleCommon (construct richParameters) volumeEntry false).m_stream =
        (construct richParameters).m_stream
          ++ (whitespace (construct richParameters) ++ "return "
            ++ (construct richParameters).m_this ++ "isImmutable( QStringLiteral( \""
            ++ qReplace volumeEntry.paramName ("$(" ++ volumeEntry.param ++ ")") "%1"
            ++ "\" ).arg( "
            ++ (if volumeEntry.paramType = "Enum" then
                  if false = true then
                    "QLatin1String( " ++ sampleCommon.enumName volumeEntry.param
                      ++ "ToString[i] )"
                  else
                    "QLatin1String( " ++ sampleCommon.enumName volumeEntry.param
                      ++ "::enumToString[i] )"
                else "i")
            ++ " ) );\n")
    ∧ qReplace volumeEntry.paramName ("$(" ++ volumeEntry.param ++ ")") "%1" = "Volume%1" :=
  ⟨by decide,
    (C8_immutable_indexed sampleCommon (construct richParameters) volumeEntry false
      (by decide)).1,
    by decide⟩

/-- C9: for a scalar entry the immutability body is exactly
`whitespace() + "return " + m_this + "isImmutable( QStringLiteral( \"" + name + "\" ) );\n"`,
whatever `globalEnums`, `paramName` and `paramType` are. -/
theorem C9_immutable_scalar (cs : CommonStructs) (g : KConfigCodeGeneratorBase) (e : CfgEntry)
    (globalEnums : Bool) (hparam : e.param = "") :
    (memberImmutableBody cs g e globalEnums).m_stream =
      g.m_stream
        ++ (whitespace g ++ "return " ++ g.m_this ++ "isImmutable( QStringLiteral( \""
          ++ e.name ++ "\" ) );\n") := by
  unfold memberImmutableBody
  simp [hparam, put_put, String.append_assoc]

/-- C9 at the scalar entry `Color`, given a key template and an enum parameter type that
the body has to ignore. -/
theorem C9_immutable_scalar_witness :
    ({ colorEntry with paramName := "Color$(x)", paramType := "Enum" } : CfgEntry).param = ""
    ∧ (memberImmutableBody sampleCommon (construct plainParameters)
          { colorEntry with paramName := "Color$(x)", paramType := "Enum" } true).m_stream =
        (construct plainParameters).m_stream
          ++ (whitespace (construct plainParameters) ++ "return "
            ++ (construct plainParameters).m_this ++ "isImmutable( QStringLiteral( \""
            ++ ({ colorEntry with paramName := "Color$(x)", paramType := "Enum" } : CfgEntry).name
            ++ "\" ) );\n") :=
  ⟨rfl,
    C9_immutable_scalar sampleCommon (construct plainParameters)
      { colorEntry with paramName := "Color$(x)", paramType := "Enum" } true rfl⟩

/-! ### Indentation -/

theorem indent_level (g : KConfigCodeGeneratorBase) :
    (indent g).m_indentLevel
      = if g.m_indentLevel ≥ 4 then g.m_indentLevel + 2 else g.m_indentLevel + 4 := by
  unfold indent
  split <;> rfl

/-- The canonical path: the level after `n` calls of `indent()` from level 0. -/
theorem indentTimes_level (g : KConfigCodeGeneratorBase) (hzero : g.m_indentLevel = 0)
    (n : Nat) :
    (indentTimes n g).m_indentLevel = if n = 0 then 0 else 2 * (n : Int) + 2 := by
  induction n with
  | zero => simpa [indentTimes] using hzero
  | succ n ih =>
    rw [indentTimes, indent_level, ih]
    by_cases hn : n = 0
    · subst hn
      rfl
    · have h4 : (2 * (n : Int) + 2 ≥ 4) := by omega
      rw [if_neg hn, if_pos h4, if_neg (Nat.succ_ne_zero n)]
      push_cast
      ring

theorem wrapInt32_of_fits (x : Int) (hlo : -2147483648 ≤ x) (hhi : x ≤ 2147483647) :
    wrapInt32 x = x := by
  unfold wrapInt32
  omega

theorem indentInt32_level (g : KConfigCodeGeneratorBase) :
    (indentInt32 g).m_indentLevel
      = wrapInt32 (if g.m_indentLevel ≥ 4 then g.m_indentLevel + 2 else g.m_indentLevel + 4) := by
  unfold indentInt32
  split <;> rfl

theorem unindentInt32_level (g : KConfigCodeGeneratorBase) :
    (unindentInt32 g).m_indentLevel
      = wrapInt32 (if g.m_indentLevel > 4 then g.m_indentLevel - 2 else g.m_indentLevel - 4) := by
  unfold unindentInt32
  split <;> rfl

/-- Where the sum fits the range of `int`, the 32-bit `indent()` is `indent`. -/
theorem indentInt32_eq_indent (g : KConfigCodeGeneratorBase)
    (hlo : -2147483648 ≤ g.m_indentLevel) (hhi : g.m_indentLevel ≤ 2147483645) :
    indentInt32 g = indent g := by
  unfold indentInt32 indent
  split
  · rw [wrapInt32_of_fits _ (by omega) (by omega)]
  · rw [wrapInt32_of_fits _ (by omega) (by omega)]

/-- Where the difference fits the range of `int`, the 32-bit `unindent()` is `unindent`. -/
theorem unindentInt32_eq_unindent (g : KConfigCodeGeneratorBase)
    (hlo : -2147483644 ≤ g.m_indentLevel) (hhi : g.m_indentLevel ≤ 2147483647) :
    unindentInt32 g = unindent g := by
  unfold unindentInt32 unindent
  split
  · rw [wrapInt32_of_fits _ (by omega) (by omega)]
  · rw [wrapInt32_of_fits _ (by omega) (by omega)]

/-- C10, as stated, fails: at the `int` level 2147483646 the sum `L + 2` does not fit the
32-bit `int`, and `indent()` leaves the level at -2147483648, not at `L + 2`; likewise
`unindent()` at the level -2147483648 leaves 2147483644, not `L - 4`. -/
theorem C10_indent_unindent_step_counterexample :
    (indentInt32 { construct plainParameters with m_indentLevel := 2147483646 }).m_indentLevel
        = -2147483648
    ∧ (indentInt32 { construct plainParameters with m_indentLevel := 2147483646 }).m_indentLevel
        ≠ 2147483646 + 2
    ∧ (unindentInt32
          { construct plainParameters with m_indentLevel := -2147483648 }).m_indentLevel
        = 2147483644
    ∧ (unindentInt32
          { construct plainParameters with m_indentLevel := -2147483648 }).m_indentLevel
        ≠ -2147483648 - 4 := by
  decide

/-- C10, amended: for every `int` indent level `L` (no level is clamped, so negative and odd
levels are included) at which the step stays in the range of `int`, `indent()` sets the
level to `L+2` if `L >= 4` and to `L+4` otherwise, and `unindent()` sets it to `L-2` if
`L > 4` and to `L-4` otherwise, both leaving the rest of the generator state as it was. The
step of `indent()` stays in range exactly for `L <= 2147483645` and that of `unindent()`
exactly for `L >= -2147483644`; there the functions computed on integers, `indent` and
`unindent`, give the same state. -/
theorem C10_indent_unindent_step (g : KConfigCodeGeneratorBase)
    (hlo : -2147483648 ≤ g.m_indentLevel) (hhi : g.m_indentLevel ≤ 2147483647) :
    (g.m_indentLevel ≤ 2147483645 →
      indentInt32 g =
        { g with m_indentLevel :=
            if g.m_indentLevel ≥ 4 then g.m_indentLevel + 2 else g.m_indentLevel + 4 })
    ∧ (-2147483644 ≤ g.m_indentLevel →
      unindentInt32 g =
        { g with m_indentLevel :=
            if g.m_indentLevel > 4 then g.m_indentLevel - 2 else g.m_indentLevel - 4 })
    ∧ ((indentInt32 g).m_indentLevel
          = (if g.m_indentLevel ≥ 4 then g.m_indentLevel + 2 else g.m_indentLevel + 4)
        ↔ g.m_indentLevel ≤ 2147483645)
    ∧ ((unindentInt32 g).m_indentLevel
          = (if g.m_indentLevel > 4 then g.m_indentLevel - 2 else g.m_indentLevel - 4)
        ↔ -2147483644 ≤ g.m_indentLevel)
    ∧ (g.m_indentLevel ≤ 2147483645 → indentInt32 g = indent g)
    ∧ (-2147483644 ≤ g.m_indentLevel → unindentInt32 g = unindent g) := by
  refine ⟨?_, ?_, ?_, ?_, indentInt32_eq_indent g hlo, fun h => unindentInt32_eq_unindent g h hhi⟩
  · intro h
    rw [indentInt32_eq_indent g hlo h]
    simp only [indent]
    split <;> rfl
  · intro h
    rw [unindentInt32_eq_unindent g h hhi]
    simp only [unindent]
    split <;> rfl
  · rw [indentInt32_level]
    unfold wrapInt32
    constructor <;> intro h <;> split_ifs at * <;> omega
  · rw [unindentInt32_level]
    unfold wrapInt32
    constructor <;> intro h <;> split_ifs at * <;> omega

/-- C10, amended, at level 6: `indent()` gives 8 and `unindent()` gives 4. -/
theorem C10_indent_unindent_step_witness :
    (-2147483648 ≤ (indentTimes 2 (construct plainParameters)).m_indentLevel
      ∧ (indentTimes 2 (construct plainParameters)).m_indentLevel ≤ 2147483647)
    ∧ (indentInt32 (indentTimes 2 (construct plainParameters))).m_indentLevel = 8
    ∧ (unindentInt32 (indentTimes 2 (construct plainParameters))).m_indentLevel = 4 :=
  ⟨⟨by decide, by decide⟩,
    (congrArg KConfigCodeGeneratorBase.m_indentLevel
      ((C10_indent_unindent_step (indentTimes 2 (construct plainParameters))
        (by decide) (by decide)).1 (by decide))).trans (by decide),
    (congrArg KConfigCodeGeneratorBase.m_indentLevel
      ((C10_indent_unindent_step (indentTimes 2 (construct plainParameters))
        (by decide) (by decide)).2.1 (by decide))).trans (by decide)⟩

/-- C12, as stated, fails: two calls of `indent()` from level 0 give level 6, not the level
8 = 2·2 + 4 of the stated path; and level 5, which is on no path from 0 (it is odd), is
restored by `indent()` followed by `unindent()`. -/
theorem C12_canonical_path_counterexample :
    (indentTimes 2 (construct plainParameters)).m_indentLevel = 6
    ∧ (indentTimes 2 (construct plainParameters)).m_indentLevel ≠ 2 * 2 + 4
    ∧ unindent (indent { construct plainParameters with m_indentLevel := 5 })
        = { construct plainParameters with m_indentLevel := 5 }
    ∧ ((5 : Int) ≠ 0 ∧ (5 : Int) ≠ 4 ∧ ∀ n : Nat, (5 : Int) ≠ 2 * (n : Int) + 4) := by
  refine ⟨by decide, by decide, by decide, by decide, by decide, ?_⟩
  intro n
  omega

/-- Along the first 1073741822 calls of `indent()` from level 0 no sum leaves the range of
`int`, and the 32-bit level is the level computed on integers. -/
theorem indentTimesInt32_eq (g : KConfigCodeGeneratorBase) (hzero : g.m_indentLevel = 0)
    (n : Nat) (hn : n ≤ 1073741822) : indentTimesInt32 n g = indentTimes n g := by
  induction n with
  | zero => rfl
  | succ n ih =>
    have hprev := ih (by omega)
    have hlevel := indentTimes_level g hzero n
    rw [indentTimesInt32, indentTimes, hprev]
    apply indentInt32_eq_indent
    · rw [hlevel]
      split_ifs <;> omega
    · rw [hlevel]
      split_ifs <;> omega

/-- A 32-bit `indent()` followed by a 32-bit `unindent()` changes nothing but the level. -/
theorem unindentInt32_indentInt32_eq (g : KConfigCodeGeneratorBase) :
    unindentInt32 (indentInt32 g)
      = { g with m_indentLevel := (unindentInt32 (indentInt32 g)).m_indentLevel } := by
  unfold unindentInt32 indentInt32
  split <;> split <;> rfl

/-- The 32-bit round trip restores an `int` level exactly when it is none of 1, 2, 3 and
none of the two largest values of `int`. -/
theorem unindentInt32_indentInt32_level_iff (g : KConfigCodeGeneratorBase)
    (hlo : -2147483648 ≤ g.m_indentLevel) (hhi : g.m_indentLevel ≤ 2147483647) :
    (unindentInt32 (indentInt32 g)).m_indentLevel = g.m_indentLevel
      ↔ ¬ (g.m_indentLevel = 1 ∨ g.m_indentLevel = 2 ∨ g.m_indentLevel = 3
            ∨ g.m_indentLevel = 2147483646 ∨ g.m_indentLevel = 2147483647) := by
  rw [unindentInt32_level, indentInt32_level]
  unfold wrapInt32
  constructor <;> intro h <;> split_ifs at * <;> omega

theorem unindentInt32_indentInt32_iff (g : KConfigCodeGeneratorBase)
    (hlo : -2147483648 ≤ g.m_indentLevel) (hhi : g.m_indentLevel ≤ 2147483647) :
    unindentInt32 (indentInt32 g) = g
      ↔ ¬ (g.m_indentLevel = 1 ∨ g.m_indentLevel = 2 ∨ g.m_indentLevel = 3
            ∨ g.m_indentLevel = 2147483646 ∨ g.m_indentLevel = 2147483647) := by
  rw [← unindentInt32_indentInt32_level_iff g hlo hhi]
  constructor
  · intro h
    exact congrArg KConfigCodeGeneratorBase.m_indentLevel h
  · intro h
    rw [unindentInt32_indentInt32_eq, h]

/-- C12, amended: starting from level 0, successive calls of `indent()` produce the levels
0, 4, 6, 8, 10, … (4 after one call, 6 after two, and `2n + 2` after `n` calls for every `n`
from 1 to 1073741822, the last call whose level fits the 32-bit `int`); the round trip of
`indent()` and `unindent()` holds at every level of this path up to 2147483644 (`n` up to
1073741821); and over all `int` levels it fails exactly at the levels 1, 2 and 3 and at the
two largest values 2147483646 and 2147483647, where `indent()` overflows. -/
theorem C12_canonical_path (g : KConfigCodeGeneratorBase) (hzero : g.m_indentLevel = 0) :
    (∀ n : Nat, n ≤ 1073741822 →
      (indentTimesInt32 n g).m_indentLevel = if n = 0 then 0 else 2 * (n : Int) + 2)
    ∧ (indentTimesInt32 1 g).m_indentLevel = 4
    ∧ (indentTimesInt32 2 g).m_indentLevel = 6
    ∧ (∀ n : Nat, n ≤ 1073741821 →
        unindentInt32 (indentInt32 (indentTimesInt32 n g)) = indentTimesInt32 n g)
    ∧ (∀ h : KConfigCodeGeneratorBase,
        -2147483648 ≤ h.m_indentLevel → h.m_indentLevel ≤ 2147483647 →
        (unindentInt32 (indentInt32 h) ≠ h
          ↔ (h.m_indentLevel = 1 ∨ h.m_indentLevel = 2 ∨ h.m_indentLevel = 3
              ∨ h.m_indentLevel = 2147483646 ∨ h.m_indentLevel = 2147483647))) := by
  have hpath : ∀ n : Nat, n ≤ 1073741822 →
      (indentTimesInt32 n g).m_indentLevel = if n = 0 then 0 else 2 * (n : Int) + 2 := by
    intro n hn
    rw [indentTimesInt32_eq g hzero n hn, indentTimes_level g hzero]
  refine ⟨hpath, ?_, ?_, ?_, ?_⟩
  · rw [hpath 1 (by omega)]; rfl
  · rw [hpath 2 (by omega)]; rfl
  · intro n hn
    have hlevel := hpath n (by omega)
    rw [unindentInt32_indentInt32_iff _ (by rw [hlevel]; split_ifs <;> omega)
      (by rw [hlevel]; split_ifs <;> omega), hlevel]
    split_ifs <;> omega
  · intro h hlo hhi
    rw [Ne, unindentInt32_indentInt32_iff h hlo hhi, not_not]

/-- C12, amended, at the freshly constructed generator. -/
theorem C12_canonical_path_witness :
    (construct plainParameters).m_indentLevel = 0
    ∧ (indentTimesInt32 2 (construct plainParameters)).m_indentLevel = 6
    ∧ unindentInt32 (indentInt32 (indentTimesInt32 3 (construct plainParameters)))
        = indentTimesInt32 3 (construct plainParameters)
    ∧ (unindentInt32 (indentInt32 { construct plainParameters with m_indentLevel := 2 })
          ≠ { construct plainParameters with m_indentLevel := 2 }
        ↔ ((2 : Int) = 1 ∨ (2 : Int) = 2 ∨ (2 : Int) = 3
            ∨ (2 : Int) = 2147483646 ∨ (2 : Int) = 2147483647)) :=
  ⟨rfl, (C12_canonical_path (construct plainParameters) rfl).2.2.1,
    (C12_canonical_path (construct plainParameters) rfl).2.2.2.1 3 (by decide),
    (C12_canonical_path (construct plainParameters) rfl).2.2.2.2
      { construct plainParameters with m_indentLevel := 2 } (by decide) (by decide)⟩

/-! ### Whitespace and brace scopes -/

theorem whitespace_eq_spaces (g : KConfigCodeGeneratorBase) :
    whitespace g = spaces g.m_indentLevel.toNat := by
  apply String.ext
  rw [whitespace_data]
  rfl

theorem whitespace_length (g : KConfigCodeGeneratorBase) :
    (whitespace g).length = g.m_indentLevel.toNat := by
  rw [whitespace_eq_spaces]
  simp [spaces, String.length]

/-- C13, as stated, fails: one call of `unindent()` from level 0 leaves the level at -4, and
`whitespace()` then returns the empty string, whose length 0 is not the level. -/
theorem C13_whitespace_length_counterexample :
    (unindent (construct plainParameters)).m_indentLevel = -4
    ∧ whitespace (unindent (construct plainParameters)) = ""
    ∧ ((whitespace (unindent (construct plainParameters))).length : Int)
        ≠ (unindent (construct plainParameters)).m_indentLevel := by
  decide

/-- C13, amended: in every state of the writer `whitespace()` returns a string that consists
only of space characters; its length equals the current indent level when that level is not
negative, and it is the empty string when the level is negative (so its length is the
larger of the level and 0). -/
theorem C13_whitespace_length (g : KConfigCodeGeneratorBase) :
    (∀ c ∈ (whitespace g).data, c = ' ')
    ∧ ((whitespace g).length : Int) = max g.m_indentLevel 0
    ∧ (0 ≤ g.m_indentLevel → ((whitespace g).length : Int) = g.m_indentLevel)
    ∧ (g.m_indentLevel < 0 → whitespace g = "") := by
  refine ⟨?_, ?_, ?_, ?_⟩
  · intro c hc
    rw [whitespace_data, List.mem_replicate] at hc
    exact hc.2
  · rw [whitespace_length]
    omega
  · intro h
    rw [whitespace_length]
    omega
  · intro h
    have h0 : g.m_indentLevel.toNat = 0 := by omega
    rw [whitespace_eq_spaces, h0]
    rfl

/-- C13, amended, at level 6 and at level -4. -/
theorem C13_whitespace_length_witness :
    (0 ≤ (indentTimes 2 (construct plainParameters)).m_indentLevel
      ∧ ((whitespace (indentTimes 2 (construct plainParameters))).length : Int)
          = (indentTimes 2 (construct plainParameters)).m_indentLevel)
    ∧ ((unindent (construct plainParameters)).m_indentLevel < 0
      ∧ whitespace (unindent (construct plainParameters)) = "") :=
  ⟨⟨by decide,
      (C13_whitespace_length (indentTimes 2 (construct plainParameters))).2.2.1 (by decide)⟩,
    ⟨by decide,
      (C13_whitespace_length (unindent (construct plainParameters))).2.2.2 (by decide)⟩⟩

/-- A loop whose body writes one line per element writes the lines in list order. -/
theorem foldl_put_lines {α : Type}
    (body : KConfigCodeGeneratorBase → α → KConfigCodeGeneratorBase) (line : α → String)
    (hbody : ∀ (g : KConfigCodeGeneratorBase) (a : α), body g a = g.put (line a))
    (l : List α) :
    ∀ g : KConfigCodeGeneratorBase, l.foldl body g = g.put (concatLines (l.map line)) := by
  induction l with
  | nil => intro g; simp [concatLines, put_empty]
  | cons a rest ih =>
    intro g
    simp only [List.foldl_cons, List.map_cons, concatLines]
    rw [hbody, ih, put_put]

theorem startsWithQuote_iff (header : String) :
    startsWithQuote header = true ↔ header.data.head? = some (Char.ofNat 34) := by
  unfold startsWithQuote
  cases header.data with
  | nil => simp
  | cons c rest => simp

theorem addHeader_eq (g : KConfigCodeGeneratorBase) (header : String) :
    addHeader g header =
      g.put (if header.data.head? = some (Char.ofNat 34) then "#include " ++ header ++ "\n"
             else "#include <" ++ header ++ ">\n") := by
  unfold addHeader
  by_cases h : header.data.head? = some (Char.ofNat 34)
  · rw [if_pos ((startsWithQuote_iff header).mpr h), if_pos h, put_put, put_put,
      String.append_assoc]
  · have h2 : ¬ startsWithQuote header = true := fun hq => h ((startsWithQuote_iff header).mp hq)
    rw [if_neg h2, if_neg h, put_put, put_put, String.append_assoc]

/-- C16: `addHeaders` writes, in input order, exactly one line per element `X` of the
header list: `"#include " + X + "\n"` when `X` begins with a double-quote character (code
point 34) and `"#include <" + X + ">\n"` otherwise. There are as many lines as list
elements, and the empty list writes nothing. -/
theorem C16_add_headers (g : KConfigCodeGeneratorBase) (headerList : List String) :
    (addHeaders g headerList).m_stream =
        g.m_stream
          ++ concatLines (headerList.map fun X =>
              if X.data.head? = some (Char.ofNat 34) then "#include " ++ X ++ "\n"
              else "#include <" ++ X ++ ">\n")
    ∧ (headerList.map fun X =>
          if X.data.head? = some (Char.ofNat 34) then "#include " ++ X ++ "\n"
          else "#include <" ++ X ++ ">\n").length = headerList.length
    ∧ addHeaders g [] = g := by
  refine ⟨?_, by simp, rfl⟩
  unfold addHeaders
  rw [foldl_put_lines addHeader _ addHeader_eq, put_m_stream]

theorem addHeaders_example :
    (addHeaders (construct plainParameters) ["\"settings.h\"", "QString", "kconfig.h"]).m_stream
      = "#include \"settings.h\"\n#include <QString>\n#include <kconfig.h>\n" := by
  decide

theorem openNamespace_eq (g : KConfigCodeGeneratorBase) (ns : String) :
    openNamespace g ns = g.put ("namespace " ++ ns ++ " \x7b\n") := by
  unfold openNamespace
  rw [put_put, put_put, String.append_assoc]

/-- The text of `beginNamespaces()`: one line per segment of the split, then a blank line. -/
theorem beginNamespaces_eq (g : KConfigCodeGeneratorBase) (hns : g.m_cfg.nameSpace ≠ "") :
    beginNamespaces g =
      g.put (concatLines ((qSplit g.m_cfg.nameSpace "::").map fun ns =>
          "namespace " ++ ns ++ " \x7b\n") ++ "\n") := by
  unfold beginNamespaces
  rw [if_pos hns]
  simp only []
  rw [foldl_put_lines openNamespace _ openNamespace_eq, put_put]

theorem endNamespacesLoop_eq (k : Nat) :
    ∀ g : KConfigCodeGeneratorBase,
      endNamespacesLoop k g = g.put (concatLines (List.replicate k "\x7d\n")) := by
  induction k with
  | zero => intro g; simp [endNamespacesLoop, concatLines, put_empty]
  | succ k ih =>
    intro g
    rw [endNamespacesLoop, ih, put_put, List.replicate_succ, concatLines]

/-- The text of `endNamespaces()`: a blank line, then one closing line per counted
occurrence of the separator, and one more. -/
theorem endNamespaces_eq (g : KConfigCodeGeneratorBase) (hns : g.m_cfg.nameSpace ≠ "") :
    endNamespaces g =
      g.put ("\n" ++ concatLines (List.replicate (qCount g.m_cfg.nameSpace "::" + 1) "\x7d\n")) := by
  unfold endNamespaces
  rw [if_pos hns]
  simp only [put_m_cfg]
  rw [endNamespacesLoop_eq, put_put]
  rfl

theorem isPrefixOf_sep (c c2 : Char) (rest : List Char) :
    List.isPrefixOf [':', ':'] (c :: c2 :: rest) = true ↔ c = ':' ∧ c2 = ':' := by
  simp only [List.isPrefixOf, Bool.and_true, Bool.and_eq_true, beq_iff_eq]
  constructor <;> rintro ⟨h1, h2⟩ <;> exact ⟨h1.symm, h2.symm⟩

/-- Where no separator `::` overlaps another (the subject has no `:::`), the split has one
segment more than the subject has counted occurrences of the separator. -/
theorem splitScan_length_of_no_overlap (n : Nat) :
    ∀ s : List Char, s.length ≤ n → ¬ [':', ':', ':'] <:+: s → ∀ part : List Char,
      (splitScan [':', ':'] 0 part s).length = countScan [':', ':'] s + 1 := by
  induction n with
  | zero =>
    intro s hlen _ part
    have hs : s = [] := List.length_eq_zero.mp (Nat.le_zero.mp hlen)
    subst hs
    simp [splitScan, countScan]
  | succ n ih =>
    intro s hlen hno part
    match s, hlen, hno with
    | [], _, _ => simp [splitScan, countScan]
    | [c], _, _ => simp [splitScan, countScan, List.isPrefixOf]
    | c :: c2 :: rest, hlen, hno =>
      have hlen2 : rest.length ≤ n := by
        simp only [List.length_cons] at hlen
        omega
      have hlen1 : (c2 :: rest).length ≤ n := by
        simp only [List.length_cons] at hlen ⊢
        omega
      have hno1 : ¬ [':', ':', ':'] <:+: c2 :: rest := fun h => hno (List.infix_cons h)
      have hno2 : ¬ [':', ':', ':'] <:+: rest := fun h => hno1 (List.infix_cons h)
      by_cases hsep : c = ':' ∧ c2 = ':'
      · obtain ⟨hc, hc2⟩ := hsep
        subst hc
        subst hc2
        have hnext : List.isPrefixOf [':', ':'] (':' :: rest) = false := by
          cases rest with
          | nil => simp [List.isPrefixOf]
          | cons c3 rest3 =>
            by_cases hc3 : c3 = ':'
            · subst hc3
              exact absurd (List.prefix_append [':', ':', ':'] rest3).isInfix hno
            · rw [← Bool.not_eq_true, isPrefixOf_sep]
              exact fun h => hc3 h.2
        have hcount : countScan [':', ':'] (':' :: ':' :: rest)
            = 1 + countScan [':', ':'] rest := by
          rw [countScan, countScan, hnext]
          simp [List.isPrefixOf]
        have hsplit : splitScan [':', ':'] 0 part (':' :: ':' :: rest)
            = part :: splitScan [':', ':'] 0 [] rest := by
          simp [splitScan, List.isPrefixOf]
        rw [hsplit, hcount, List.length_cons, ih rest hlen2 hno2 []]
        omega
      · have hpre : List.isPrefixOf [':', ':'] (c :: c2 :: rest) = false := by
          rw [← Bool.not_eq_true, isPrefixOf_sep]
          exact hsep
        have hcount : countScan [':', ':'] (c :: c2 :: rest)
            = countScan [':', ':'] (c2 :: rest) := by
          rw [countScan, hpre]
          simp
        have hsplit : splitScan [':', ':'] 0 part (c :: c2 :: rest)
            = splitScan [':', ':'] 0 (part ++ [c]) (c2 :: rest) := by
          rw [splitScan, hpre]
          simp
        rw [hsplit, hcount, ih (c2 :: rest) hlen1 hno1 (part ++ [c])]

/-- For a namespace without `:::`, `beginNamespaces()` writes as many `namespace` lines as
`endNamespaces()` writes closing lines. -/
theorem namespaces_balanced_of_no_overlap (nameSpace : String)
    (hno : ¬ ":::".data <:+: nameSpace.data) :
    (qSplit nameSpace "::").length = qCount nameSpace "::" + 1 := by
  unfold qSplit qCount
  rw [List.length_map]
  exact splitScan_length_of_no_overlap nameSpace.data.length nameSpace.data (le_refl _) hno []

/-- C15, at the namespace `A:::B`: the split has the two segments `A` and `:B`, so
`beginNamespaces()` writes two `namespace` lines, while the separator `::` is counted twice
(at the second and at the third character), so `endNamespaces()` writes three closing
lines. -/
theorem C15_namespace_balance_failing_input :
    qSplit "A:::B" "::" = ["A", ":B"]
    ∧ qCount "A:::B" "::" = 2
    ∧ (beginNamespaces (construct { plainParameters with nameSpace := "A:::B" })).m_stream
        = "namespace A \x7b\n" ++ "namespace :B \x7b\n" ++ "\n"
    ∧ (endNamespaces (construct { plainParameters with nameSpace := "A:::B" })).m_stream
        = "\n" ++ "\x7d\n" ++ "\x7d\n" ++ "\x7d\n" := by
  decide

theorem namespaces_example :
    (beginNamespaces (construct richParameters)).m_stream
        = "namespace Org \x7b\n" ++ "namespace App \x7b\n" ++ "\n"
    ∧ (endNamespaces (construct richParameters)).m_stream = "\n" ++ "\x7d\n" ++ "\x7d\n"
    ∧ beginNamespaces (construct plainParameters) = construct plainParameters
    ∧ endNamespaces (construct plainParameters) = construct plainParameters := by
  decide

/-! ### Getter and setter together -/

/-- The accessor body as one text: the return statement around the target expression, with
the cast opened and closed under one condition. -/
theorem memberAccessorBody_eq (cs : CommonStructs) (g : KConfigCodeGeneratorBase)
    (e : CfgEntry) (globalEnums : Bool) :
    memberAccessorBody cs g e globalEnums =
      "return "
        ++ (if g.m_cfg.useEnumTypes = true ∧ e.type = "Enum" then
              "static_cast<" ++ cs.enumType e globalEnums ++ ">(" else "")
        ++ targetExpression cs g e
        ++ (if g.m_cfg.useEnumTypes = true ∧ e.type = "Enum" then ")" else "")
        ++ ";\n" := by
  unfold memberAccessorBody targetExpression
  by_cases ht : e.type = "Enum" <;> by_cases hu : g.m_cfg.useEnumTypes = true <;>
    by_cases hp : e.param = "" <;> simp [ht, hu, hp, String.append_assoc] <;> rfl

theorem whitespace_construct (parameters : KConfigParameters) :
    whitespace (construct parameters) = "" := rfl

/-- C17: for the entry `Color` (type string, no parameter, no bounds, no signals) under
instance style, direct-member storage and `generateProperties` off, at indent level 0, the
accessor body is exactly `"return " + varPath("Color") + ";\n"` and the mutator body is
exactly `"if (!" + immutableFunction("Color", "") + "())\n" + "  " + varPath("Color") +
" = v;\n"`: one guarded assignment and nothing else. -/
theorem C17_color_end_to_end (cs : CommonStructs) (parameters : KConfigParameters)
    (globalEnums : Bool) (hstyle : parameters.staticAccessors = false)
    (hstorage : parameters.dpointer = false)
    (hproperties : parameters.generateProperties = false) :
    (construct parameters).m_this = ""
    ∧ (construct parameters).m_indentLevel = 0
    ∧ memberAccessorBody cs (construct parameters) colorEntry globalEnums
        = "return " ++ cs.varPath "Color" parameters ++ ";\n"
    ∧ (memberMutatorBody cs (construct parameters) colorEntry).m_stream
        = "if (!" ++ cs.immutableFunction "Color" "" ++ "())\n"
          ++ "  " ++ cs.varPath "Color" parameters ++ " = v;\n" := by
  have hthis : (construct parameters).m_this = "" := by
    simp [construct, hstyle]
  have hcfg : (construct parameters).m_cfg = parameters := rfl
  have hobs : ¬ observed (construct parameters) colorEntry := by
    unfold observed
    rw [hcfg, hproperties]
    decide
  have hparam : colorEntry.param = "" := rfl
  have htarget : targetExpression cs (construct parameters) colorEntry
      = cs.varPath "Color" parameters := by
    unfold targetExpression
    rw [hthis, hcfg]
    simp [colorEntry]
  refine ⟨hthis, rfl, ?_, ?_⟩
  · rw [memberAccessorBody_eq, htarget]
    simp [colorEntry]
  · rw [memberMutatorBody_eq, put_m_stream]
    unfold mutatorText guardText assignmentLine closingText
    rw [lowerClampText_no_min _ _ _ rfl, upperClampText_no_max _ _ _ rfl, htarget,
      whitespace_construct, hthis, hcfg, hstorage]
    simp only [if_neg hobs]
    simp [colorEntry, concatLines, String.append_assoc]
    rfl

/-- C17 at the plain parameters and the sample helpers. -/
theorem C17_color_end_to_end_witness :
    plainParameters.staticAccessors = false
    ∧ plainParameters.dpointer = false
    ∧ plainParameters.generateProperties = false
    ∧ (memberMutatorBody sampleCommon (construct plainParameters) colorEntry).m_stream
        = "if (!" ++ sampleCommon.immutableFunction "Color" "" ++ "())\n"
          ++ "  " ++ sampleCommon.varPath "Color" plainParameters ++ " = v;\n" :=
  ⟨rfl, rfl, rfl,
    (C17_color_end_to_end sampleCommon plainParameters true rfl rfl rfl).2.2.2⟩

/-- C20: getter and setter address the same storage. The accessor body is the return
statement around an expression `E` (inside the cast, when the enum cast applies), and the
mutator body compares `v` against and assigns `v` to an expression `T`; `E` and `T` are the
same text, `m_this + varPath(name)` followed by `"[i]"` exactly for an indexed entry. -/
theorem C20_same_target (cs : CommonStructs) (g : KConfigCodeGeneratorBase) (e : CfgEntry)
    (globalEnums : Bool) :
    memberAccessorBody cs g e globalEnums =
        "return "
          ++ (if g.m_cfg.useEnumTypes = true ∧ e.type = "Enum" then
                "static_cast<" ++ cs.enumType e globalEnums ++ ">(" else "")
          ++ targetExpression cs g e
          ++ (if g.m_cfg.useEnumTypes = true ∧ e.type = "Enum" then ")" else "")
          ++ ";\n"
    ∧ (memberMutatorBody cs g e).m_stream =
        g.m_stream ++ lowerClampText cs g e ++ upperClampText cs g e
          ++ (whitespace g ++ "if ("
            ++ (if e.signalList ≠ [] ∨ g.m_cfg.generateProperties = true then
                  "v != " ++ targetExpression cs g e ++ " && "
                else "")
            ++ "!" ++ g.m_this
            ++ cs.immutableFunction e.name
                (if g.m_cfg.dpointer then g.m_cfg.className else "")
            ++ "(" ++ (if e.param ≠ "" then " i " else "") ++ "))")
          ++ (if e.signalList ≠ [] ∨ g.m_cfg.generateProperties = true then " \x7b" else "")
          ++ "\n"
          ++ (whitespace g ++ "  " ++ targetExpression cs g e ++ " = v;\n")
          ++ concatLines (e.signalList.map (signalLine cs g))
          ++ closingText g e
    ∧ targetExpression cs g e
        = g.m_this ++ cs.varPath e.name g.m_cfg ++ (if e.param ≠ "" then "[i]" else "") := by
  refine ⟨memberAccessorBody_eq cs g e globalEnums, ?_, rfl⟩
  rw [memberMutatorBody_eq, put_m_stream]
  simp only [mutatorText, guardText, assignmentLine, observed, String.append_assoc]

/-! ### The destination -/

/-- The state of the destination after `n` explicit calls of `save()`. -/
theorem saveTimes_opened (n : Nat) :
    saveTimes n QFile.opened =
      if n = 0 then QFile.opened
      else { isOpen := false, closeCalls := n, timesClosed := 1 } := by
  induction n with
  | zero => rfl
  | succ n ih =>
    rw [saveTimes, ih]
    by_cases hn : n = 0
    · subst hn
      rfl
    · rw [if_neg hn, if_neg (Nat.succ_ne_zero n)]
      rfl

/-- C18: over the lifecycle of a generator whose destination was opened, with any number
`n` of explicit calls of `save()` and then the destructor, the destination is closed exactly
once and is closed at the end. The destructor closes it exactly when no explicit `save()`
has, and after the first `save()` further calls close nothing. `save()` itself calls
`m_file.close()` every time, `n + 1` times in all; a call on the closed device closes
nothing. -/
theorem C18_single_close (n : Nat) :
    (destructor (saveTimes n QFile.opened)).timesClosed = 1
    ∧ (destructor (saveTimes n QFile.opened)).isOpen = false
    ∧ ((destructor (saveTimes n QFile.opened)).timesClosed
          = (saveTimes n QFile.opened).timesClosed + 1 ↔ n = 0)
    ∧ (∀ m : Nat, (saveTimes (m + 1) QFile.opened).timesClosed = 1)
    ∧ (destructor (saveTimes n QFile.opened)).closeCalls = n + 1 := by
  have hfinal : destructor (saveTimes n QFile.opened)
      = { isOpen := false, closeCalls := n + 1, timesClosed := 1 } := by
    rw [saveTimes_opened]
    by_cases hn : n = 0
    · subst hn
      rfl
    · rw [if_neg hn]
      rfl
  refine ⟨by rw [hfinal], by rw [hfinal], ?_, ?_, by rw [hfinal]⟩
  · rw [hfinal, saveTimes_opened]
    by_cases hn : n = 0
    · subst hn
      simp [QFile.opened]
    · simp [hn]
  · intro m
    rw [saveTimes_opened, if_neg (Nat.succ_ne_zero m)]

theorem save_lifecycle_example :
    destructor (saveTimes 0 QFile.opened) = { isOpen := false, closeCalls := 1, timesClosed := 1 }
    ∧ destructor (saveTimes 2 QFile.opened)
        = { isOpen := false, closeCalls := 3, timesClosed := 1 } := by
  decide

end KConfig
